import Mathlib

/-!
# Galaxy: a filesystem monitoring daemon and its client library

Shallow embedding of parts of `galaxyd` (event queue, inotify reader and watch
registry, command server and per-client worker, signal thread, lock file and
start-up of `main`) and of `libgalaxy` (connect handshake, control commands), with
theorems about them.

Conventions of the embedding

* C `int` fields are `Int`; `uint32_t` values are `Nat` and every increment of a
  `uint32_t` is written with an explicit `% 2 ^ 32`.
* A `void *` is an `Option α`: `none` is `NULL`, `some a` a pointer to the object `a`.
* Results of calls into code outside the translated functions (system calls, the
  `galnet` helpers) are explicit arguments of the translated function.
-/

namespace Galaxy

/-! ## Definitions -/

/-! ### event_queue.c -/

/-- The `struct queue_struct` of event_queue.c. The `array` member is the
malloc-ed block of `void *` slots, modelled as the value found at every index;
whether an index lies inside the block (`0 ≤ i < capacity`) is a separate question. -/
structure queue_struct (α : Type) where
  capacity : Int
  front : Int
  rear : Int
  size : Int
  array : Int → Option α

variable {α : Type}

/-- `queue_empty`: `q->size == 0`. -/
def queue_empty (q : queue_struct α) : Bool :=
  q.size == 0

/-- `queue_full`: `q->size == q->capacity`. -/
def queue_full (q : queue_struct α) : Bool :=
  q.size == q.capacity

/-- `queue_make_empty`: size 0, front 1, rear 0. -/
def queue_make_empty (q : queue_struct α) : queue_struct α :=
  { q with size := 0, front := 1, rear := 0 }

/-- `queue_create`: the two `malloc` calls are taken to succeed (otherwise the
process exits); `uninit` is the indeterminate content of the fresh slot block. -/
def queue_create (num_elements : Int) (uninit : Int → Option α) : queue_struct α :=
  queue_make_empty
    { capacity := num_elements, front := 0, rear := 0, size := 0, array := uninit }

/-- `next_position`: `if (++v == q->capacity) v = 0; return v;`. -/
def next_position (v : Int) (q : queue_struct α) : Int :=
  if v + 1 = q.capacity then 0 else v + 1

/-- `queue_enqueue`: returns at once on a full queue, otherwise bumps `size`,
advances `rear` and stores `d` in `array[rear]`. -/
def queue_enqueue (d : Option α) (q : queue_struct α) : queue_struct α :=
  if queue_full q then q
  else
    let r := next_position q.rear q
    { q with size := q.size + 1, rear := r,
             array := fun i => if i = r then d else q.array i }

/-- `queue_front`: `array[front]` when the queue is not empty, `NULL` otherwise. -/
def queue_front (q : queue_struct α) : Option α :=
  if !queue_empty q then q.array q.front else none

/-- `queue_dequeue`: on a non-empty queue decrements `size` and advances `front`. -/
def queue_dequeue (q : queue_struct α) : queue_struct α :=
  if !queue_empty q then
    { q with size := q.size - 1, front := next_position q.front q }
  else q

/-- The consumer loop of `print_events` (inotify_utils.c):
`while (!queue_empty (q)) { event = queue_front (q); queue_dequeue (q); ... }`,
returning the events it takes out, in order. `fuel` bounds the iterations. -/
def queue_drain : Nat → queue_struct α → List (Option α)
  | 0, _ => []
  | k + 1, q =>
    if queue_empty q then []
    else queue_front q :: queue_drain k (queue_dequeue q)

/-- The events a queue holds: what the consumer loop takes out of it,
run with fuel `size` (one iteration per stored event). -/
def queue_contents (q : queue_struct α) : List (Option α) :=
  queue_drain q.size.toNat q

/-- A call made on a queue by its users. -/
inductive queue_op (α : Type) where
  | enqueue (d : Option α)
  | dequeue

/-- Effect of one call on the queue. -/
def queue_apply (q : queue_struct α) : queue_op α → queue_struct α
  | .enqueue d => queue_enqueue d q
  | .dequeue => queue_dequeue q

/-- Effect of a sequence of calls, first call first. -/
def queue_run (ops : List (queue_op α)) (q : queue_struct α) : queue_struct α :=
  ops.foldl queue_apply q

/-- No `queue_enqueue` of the sequence is made while `queue_full` holds. -/
def no_enqueue_on_full : List (queue_op α) → queue_struct α → Prop
  | [], _ => True
  | .enqueue d :: ops, q => queue_full q = false ∧ no_enqueue_on_full ops (queue_enqueue d q)
  | .dequeue :: ops, q => no_enqueue_on_full ops (queue_dequeue q)

/-- The arguments of the `queue_enqueue` calls of a sequence, in call order. -/
def queue_enqueued : List (queue_op α) → List (Option α)
  | [] => []
  | .enqueue d :: ops => d :: queue_enqueued ops
  | .dequeue :: ops => queue_enqueued ops

/-- The elements that leave the queue during a sequence of calls: for each
`queue_dequeue` made on a non-empty queue, the value `queue_front` returns
just before it. -/
def queue_departed : List (queue_op α) → queue_struct α → List (Option α)
  | [], _ => []
  | .enqueue d :: ops, q => queue_departed ops (queue_enqueue d q)
  | .dequeue :: ops, q =>
    if queue_empty q then queue_departed ops (queue_dequeue q)
    else queue_front q :: queue_departed ops (queue_dequeue q)

/-- Index of the `i`-th slot after `f` in a ring of `n` slots (`0 ≤ f < n`, `0 ≤ i ≤ n`). -/
def ring_pos (n f i : Int) : Int :=
  if f + i < n then f + i else f + i - n

/-- Representation invariant: the queue `q`, of capacity `n`, holds exactly the
list `l`, oldest element first, in the slots `front, front+1, ...` (cyclically),
and `rear` is the slot just before the first free one. -/
structure queue_holds (n : Int) (q : queue_struct α) (l : List (Option α)) : Prop where
  cap : q.capacity = n
  front_lo : 0 ≤ q.front
  front_hi : q.front < n
  rear_lo : 0 ≤ q.rear
  rear_hi : q.rear < n
  size_eq : q.size = l.length
  size_le : q.size ≤ n
  rear_eq : next_position q.rear q = ring_pos n q.front q.size
  slots : ∀ i : Nat, i < l.length → q.array (ring_pos n q.front i) = l.getD i none

/-! ### inotify_utils.c -/

/-- What `read_events` uses of `struct inotify_event`, whose declaration is in a
header outside the translated sources: `sizeof_event` is
`sizeof(struct inotify_event)` (the fixed-size part: wd, mask, cookie, len) and
`len` reads the `len` member out of the bytes of that fixed-size part. -/
structure inotify_layout where
  sizeof_event : Nat
  len : List Nat → Nat

/-- The layout on Linux, little-endian: four 32-bit members `wd`, `mask`, `cookie`,
`len` (16 bytes), followed by the name. -/
def linux_inotify_layout : inotify_layout where
  sizeof_event := 16
  len := fun hdr =>
    hdr.getD 12 0 + 256 * hdr.getD 13 0 + 65536 * hdr.getD 14 0 + 16777216 * hdr.getD 15 0

/-- The `n` bytes of memory starting at offset `off` of `buffer`. -/
def bytes_at (buffer : Nat → Nat) (off n : Nat) : List Nat :=
  (List.range' off n).map buffer

/-- The `while (buffer_i < r)` loop of `read_events`. Each round reads
`pevent->len` at `buffer_i`, copies `sizeof(struct inotify_event) + len` bytes into
a fresh block (`malloc` is taken to succeed), enqueues the copy, advances
`buffer_i` by the event size and counts. `none` means the fuel ran out while
`buffer_i < r` still held. -/
def read_events_loop (lay : inotify_layout) (buffer : Nat → Nat) (r : Nat) :
    Nat → Nat → Int → queue_struct (List Nat) → Option (Int × queue_struct (List Nat))
  | 0, buffer_i, count, q => if buffer_i < r then none else some (count, q)
  | fuel + 1, buffer_i, count, q =>
    if buffer_i < r then
      let event_size := lay.sizeof_event + lay.len (bytes_at buffer buffer_i lay.sizeof_event)
      let event := bytes_at buffer buffer_i event_size
      read_events_loop lay buffer r fuel (buffer_i + event_size) (count + 1)
        (queue_enqueue (some event) q)
    else some (count, q)

/-- `read_events`: `r` is the value returned by `read (fd, buffer, 16384)` and
`buffer` the memory at and after the start of the local buffer once `read` has
returned. When `r <= 0` the function returns `r`; otherwise it parses and
enqueues events from offset 0 and returns their count. -/
def read_events (lay : inotify_layout) (q : queue_struct (List Nat)) (r : Int)
    (buffer : Nat → Nat) (fuel : Nat) : Option (Int × queue_struct (List Nat)) :=
  if r ≤ 0 then some (r, q)
  else read_events_loop lay buffer r.toNat fuel 0 0 q

/-- A complete inotify record: the fixed-size part followed by exactly as many
name bytes as its `len` member says. -/
def is_record (lay : inotify_layout) (rec : List Nat) : Prop :=
  lay.sizeof_event ≤ rec.length ∧
  rec.length = lay.sizeof_event + lay.len (rec.take lay.sizeof_event)

/-- Successive `queue_enqueue` calls, one per event of a list, in list order. -/
def queue_enqueue_all (events : List (List Nat)) (q : queue_struct (List Nat)) :
    queue_struct (List Nat) :=
  events.foldl (fun q e => queue_enqueue (some e) q) q

instance (lay : inotify_layout) (rec : List Nat) : Decidable (is_record lay rec) := by
  unfold is_record; infer_instance

/-- Two sample records in the Linux layout: wd 1, mask 0x100, no name; and wd 2,
mask 2, a four-byte name field holding "a". -/
def sample_records : List (List Nat) :=
  [[1, 0, 0, 0, 0, 1, 0, 0, 0, 0, 0, 0, 0, 0, 0, 0],
   [2, 0, 0, 0, 2, 0, 0, 0, 0, 0, 0, 0, 4, 0, 0, 0, 97, 0, 0, 0]]

/-- A buffer whose first 36 bytes are the two sample records; 255 everywhere else. -/
def sample_buffer : Nat → Nat :=
  fun i => sample_records.flatten.getD i 255

/-! ### galaxy.h -/

/-- `GALAXY_WATCH` -/
def GALAXY_WATCH : Nat := 1

/-- `GALAXY_IGNORE_MASK` -/
def GALAXY_IGNORE_MASK : Nat := 2

/-- `GALAXY_IGNORE_WATCH` -/
def GALAXY_IGNORE_WATCH : Nat := 3

/-- `GALAXY_EXIT` -/
def GALAXY_EXIT : Nat := 4

/-- `ACK_SUCCESS` -/
def ACK_SUCCESS : Nat := 1

/-- `ACK_FAIL` -/
def ACK_FAIL : Nat := 2

/-- `struct galaxy_t`: the client-side listening descriptor and the name of the
per-session control socket. -/
structure galaxy_t where
  fd : Int
  sname : String
  deriving DecidableEq, Repr

/-! ### galnet (frames on a connection) -/

/-- One unit sent by `net_send_uint32` / `net_send_string` and received by
`net_recv_uint32` / `net_recv_string`. -/
inductive frame where
  | uint32 (v : Nat)
  | string (s : String)
  deriving DecidableEq, Repr

/-- Modelled from the spec: `net_recv_uint32` of galnet, whose source is not among
the translated files. The connection is the list of frames the peer has written
and that are not yet read; the call takes the next frame if it is a uint32 frame
and fails (`err < 0`, here `none`) otherwise, e.g. when the peer has written
nothing more. -/
def net_recv_uint32 : List frame → Option Nat × List frame
  | .uint32 v :: rest => (some v, rest)
  | conn => (none, conn)

/-- Modelled from the spec: `net_recv_string` of galnet (length-prefixed string),
whose source is not among the translated files. It takes the next frame if it is
a string frame and returns `NULL` (`none`) otherwise. -/
def net_recv_string : List frame → Option String × List frame
  | .string s :: rest => (some s, rest)
  | conn => (none, conn)

/-! ### server_thread.c: `client_request` -/

/-- What one round of the `client_request` loop does, in program order: receives
(with their results), calls into the session registry (`watch.h`), and the
`close` of the connection, which records the frames left unread. -/
inductive server_event where
  | recv_uint32 (result : Option Nat)
  | recv_string (result : Option String)
  | add_galaxy_watch (name : String) (mask : Nat) (regexp : Option String)
  | add_galaxy_ignore_watch (name : String) (mask : Nat) (regexp : Option String)
  | set_galaxy_ignore_mask (name : String) (mask : Nat)
  | remove_galaxy_watches (name : String)
  | close_connfd (unread : List frame)
  | close_listenfd
  deriving DecidableEq, Repr

/-- One round of `while (1)` in `client_request`. `accepted` is the outcome of
`serv_accept`: `none` when it fails (`connfd < 0`), otherwise the frames the
client writes on the accepted connection. The result is the events of the round
and whether the round left the loop through `break`. -/
def client_request_round (cliservname : String) (accepted : Option (List frame)) :
    List server_event × Bool :=
  match accepted with
  | none => ([], false)
  | some conn =>
    match net_recv_uint32 conn with
    | (none, rest) => ([.recv_uint32 none, .close_connfd rest], false)
    | (some cmd, rest) =>
      if cmd = GALAXY_EXIT then
        ([.recv_uint32 (some cmd), .remove_galaxy_watches cliservname, .close_connfd rest], true)
      else
        match net_recv_uint32 rest with
        | (none, rest2) =>
          ([.recv_uint32 (some cmd), .recv_uint32 none, .close_connfd rest2], false)
        | (some mask, rest2) =>
          if cmd = GALAXY_WATCH then
            ([.recv_uint32 (some cmd), .recv_uint32 (some mask),
              .recv_string (net_recv_string rest2).1,
              .add_galaxy_watch cliservname mask (net_recv_string rest2).1,
              .close_connfd (net_recv_string rest2).2], false)
          else if cmd = GALAXY_IGNORE_WATCH then
            ([.recv_uint32 (some cmd), .recv_uint32 (some mask),
              .recv_string (net_recv_string rest2).1,
              .add_galaxy_ignore_watch cliservname mask (net_recv_string rest2).1,
              .close_connfd (net_recv_string rest2).2], false)
          else if cmd = GALAXY_IGNORE_MASK then
            ([.recv_uint32 (some cmd), .recv_uint32 (some mask),
              .set_galaxy_ignore_mask cliservname mask, .close_connfd rest2], false)
          else
            ([.recv_uint32 (some cmd), .recv_uint32 (some mask), .close_connfd rest2], false)

/-- A run of the per-client worker over the connection attempts it is offered. -/
structure worker_run where
  /-- Events of all rounds, in order. -/
  trace : List server_event
  /-- The thread function has returned (the loop was left through `break`). -/
  returned : Bool
  /-- Connection attempts never accepted because the worker had returned. -/
  unserved : List (Option (List frame))
  deriving DecidableEq, Repr

/-- `client_request`: the rounds of the loop over the successive outcomes of
`serv_accept`. After a `break` the listening socket is closed and the function
returns; when the outcomes are used up without a `break` the worker is blocked in
`serv_accept` and has not returned. -/
def client_request (cliservname : String) : List (Option (List frame)) → worker_run
  | [] => { trace := [], returned := false, unserved := [] }
  | c :: cs =>
    if (client_request_round cliservname c).2 then
      { trace := (client_request_round cliservname c).1 ++ [.close_listenfd],
        returned := true, unserved := cs }
    else
      { client_request cliservname cs with
        trace := (client_request_round cliservname c).1 ++ (client_request cliservname cs).trace }

/-- The command of a connection attempt is EXIT: the connection was accepted and
the command word received on it equals `GALAXY_EXIT`. -/
def is_exit_connection : Option (List frame) → Bool
  | some (.uint32 v :: _) => v == GALAXY_EXIT
  | _ => false

/-- The frames a trace shows as received, in order. -/
def frames_read : List server_event → List frame
  | [] => []
  | .recv_uint32 (some v) :: es => .uint32 v :: frames_read es
  | .recv_string (some s) :: es => .string s :: frames_read es
  | _ :: es => frames_read es

/-- Some receive of the trace failed: the server asked for a frame it did not get. -/
def recv_failed : List server_event → Bool
  | [] => false
  | .recv_uint32 none :: _ => true
  | .recv_string none :: _ => true
  | _ :: es => recv_failed es

/-- The frames left unread on connections when they were closed. -/
def frames_unread : List server_event → List frame
  | [] => []
  | .close_connfd unread :: es => unread ++ frames_unread es
  | _ :: es => frames_unread es

/-! ### libgalaxy.c: control commands -/

/-- `galaxy_send_server_command`. `connfd` is the result of `cli_conn`, and
`err_cmd`, `err_mask`, `err_str` are the results of the three `net_send_*` calls
(consulted only if the call is made). Returns the function result and the frames
written on the connection; a send that reports an error is taken to have written
no frame. `E_CLI_CONN` is the constant `NETWORK_ERROR_CLI_CONN` of galnet.h. -/
def galaxy_send_server_command (E_CLI_CONN : Int) (connfd : Int) (command mask : Nat)
    (regexp : Option String) (err_cmd err_mask err_str : Int) : Int × List frame :=
  if connfd < 0 then (E_CLI_CONN, [])
  else if err_cmd < 0 then (err_cmd, [])
  else if err_mask < 0 then (err_mask, [.uint32 command])
  else
    match regexp with
    | some s =>
      if err_str < 0 then (err_str, [.uint32 command, .uint32 mask])
      else (err_str, [.uint32 command, .uint32 mask, .string s])
    | none => (err_mask, [.uint32 command, .uint32 mask])

/-- The macro `galaxy_watch(galaxy, mask, regexp)`. -/
def galaxy_watch (E_CLI_CONN connfd : Int) (mask : Nat) (regexp : Option String)
    (err_cmd err_mask err_str : Int) : Int × List frame :=
  galaxy_send_server_command E_CLI_CONN connfd GALAXY_WATCH mask regexp err_cmd err_mask err_str

/-- The macro `galaxy_ignore_mask(galaxy, mask)`: the regexp argument is `NULL`. -/
def galaxy_ignore_mask (E_CLI_CONN connfd : Int) (mask : Nat)
    (err_cmd err_mask err_str : Int) : Int × List frame :=
  galaxy_send_server_command E_CLI_CONN connfd GALAXY_IGNORE_MASK mask none
    err_cmd err_mask err_str

/-- The macro `galaxy_ignore_watch(galaxy, mask, regexp)`. -/
def galaxy_ignore_watch (E_CLI_CONN connfd : Int) (mask : Nat) (regexp : Option String)
    (err_cmd err_mask err_str : Int) : Int × List frame :=
  galaxy_send_server_command E_CLI_CONN connfd GALAXY_IGNORE_WATCH mask regexp
    err_cmd err_mask err_str

/-- `galaxy_close`: after closing the local listener, connects to the control
socket and sends `GALAXY_EXIT`. Returns the function result and the frames written. -/
def galaxy_close (E_CLI_CONN connfd err_cmd : Int) : Int × List frame :=
  if connfd < 0 then (E_CLI_CONN, [])
  else if err_cmd < 0 then (err_cmd, [])
  else (err_cmd, [.uint32 GALAXY_EXIT])

/-- The frames of one command on the per-session control socket, following the
words of the protocol description: the command; then the mask unless the command
is EXIT; then a length-prefixed regex exactly for WATCH and IGNORE_WATCH. -/
def spec_control_frames (command mask : Nat) (regexp : String) : List frame :=
  .uint32 command ::
    (if command = GALAXY_EXIT then []
     else .uint32 mask ::
       (if command = GALAXY_WATCH ∨ command = GALAXY_IGNORE_WATCH then [.string regexp]
        else []))

/-- The server round consumes exactly the frames `written` on a connection: the
frames it receives are `written` in order, no receive fails (the server never
waits for a frame that was not sent) and nothing is left unread at `close`. -/
def served_exactly (cliservname : String) (written : List frame) : Prop :=
  frames_read (client_request_round cliservname (some written)).1 = written ∧
  recv_failed (client_request_round cliservname (some written)).1 = false ∧
  frames_unread (client_request_round cliservname (some written)).1 = []

/-! ### `sprintf (buf, "%s%05d.%d", CLI_PATH, pid, id)` -/

/-- The character of a decimal digit `d < 10`. -/
def digit_char (d : Nat) : Char :=
  Char.ofNat (48 + d)

/-- Decimal digits of a natural number, most significant first; `0` prints as "0". -/
def decimal_chars (n : Nat) : List Char :=
  if n = 0 then [digit_char 0] else ((Nat.digits 10 n).reverse).map digit_char

/-- `%d` applied to a `uint32_t` argument `v < 2 ^ 32`: the 32 bits are read as
an `int`, so values from `2 ^ 31` on print as negative numbers. -/
def fmt_d (v : Nat) : List Char :=
  if v < 2 ^ 31 then decimal_chars v else '-' :: decimal_chars (2 ^ 32 - v)

/-- `%05d` applied to a `uint32_t` argument: as `%d`, padded with zeros (after
the sign, if any) to a field width of at least five characters. -/
def fmt_05d (v : Nat) : List Char :=
  if v < 2 ^ 31 then
    List.replicate (5 - (decimal_chars v).length) '0' ++ decimal_chars v
  else
    '-' :: (List.replicate (4 - (decimal_chars (2 ^ 32 - v)).length) '0'
      ++ decimal_chars (2 ^ 32 - v))

/-- The string written by `sprintf (buf, "%s%05d.%d", s, a, b)` for `uint32_t`
arguments `a`, `b`, as in `galaxy_connect` and `server_thread`. -/
def sprintf_s_05d_d (s : String) (a b : Nat) : String :=
  String.mk (s.data ++ fmt_05d a ++ '.' :: fmt_d b)

/-! ### server_thread.c: name of the per-session control socket -/

/-- The name `server_thread` passes to `serv_listen`:
`sprintf (name, "%s%05d.%d", CLI_PATH, pid, id)` with the received `pid` and `id`.
`CLI_PATH` is a constant of galnet.h. -/
def server_thread_name (CLI_PATH : String) (pid id : Nat) : String :=
  sprintf_s_05d_d CLI_PATH pid id

/-! ### libgalaxy.c: `galaxy_connect` -/

/-- Results of the calls `galaxy_connect` makes outside libgalaxy.c, each consulted
only if the call is made: `serv_listen`, the three `net_send_*` calls, and
`net_recv_uint32` with the acknowledgement word it stores. -/
structure connect_io where
  listen_fd : Int
  err_name : Int
  err_pid : Int
  err_id : Int
  err_ack : Int
  ack : Nat
  deriving DecidableEq, Repr

/-- What a `galaxy_connect` call leaves behind. -/
structure connect_result where
  /-- The return value. -/
  ret : Int
  /-- The static counter `uniqueid` after the call. -/
  uniqueid : Nat
  /-- The caller's `struct galaxy_t` after the call. -/
  galaxy : galaxy_t
  /-- The name given to `serv_listen` for the client-side (delivery) socket. -/
  cliname : String
  /-- The frames written to the daemon, in order. -/
  sent : List frame
  deriving DecidableEq, Repr

/-- `galaxy_connect`. `pid` is `getpid ()` stored in a `uint32_t`, `uniqueid` the
static counter on entry, `galaxy` the caller's structure on entry, `CLI_PATH` and
`E_SERV_LISTEN` (`NETWORK_ERROR_SERV_LISTEN`) constants of galnet.h. A send that
reports an error is taken to have written no frame. -/
def galaxy_connect (CLI_PATH : String) (E_SERV_LISTEN : Int) (pid : Nat) (io : connect_io)
    (uniqueid : Nat) (galaxy : galaxy_t) : connect_result :=
  let cliname := sprintf_s_05d_d CLI_PATH pid uniqueid
  let uniqueid1 := (uniqueid + 1) % 2 ^ 32
  let galaxy1 : galaxy_t := { galaxy with fd := io.listen_fd }
  if io.listen_fd < 0 then
    ⟨E_SERV_LISTEN, uniqueid1, galaxy1, cliname, []⟩
  else if io.err_name < 0 then
    ⟨io.err_name, uniqueid1, galaxy1, cliname, []⟩
  else if io.err_pid < 0 then
    ⟨io.err_pid, uniqueid1, galaxy1, cliname, [.string cliname]⟩
  else if io.err_id < 0 then
    ⟨io.err_id, uniqueid1, galaxy1, cliname, [.string cliname, .uint32 pid]⟩
  else if io.err_ack < 0 then
    ⟨io.err_ack, uniqueid1, galaxy1, cliname,
      [.string cliname, .uint32 pid, .uint32 uniqueid1]⟩
  else if io.ack = ACK_FAIL then
    ⟨-3, uniqueid1, galaxy1, cliname, [.string cliname, .uint32 pid, .uint32 uniqueid1]⟩
  else
    ⟨0, (uniqueid1 + 1) % 2 ^ 32,
      { galaxy1 with sname := sprintf_s_05d_d CLI_PATH pid uniqueid1 }, cliname,
      [.string cliname, .uint32 pid, .uint32 uniqueid1]⟩

/-- A call of the client library made by one process. `galaxy_close` does not
touch the counter `uniqueid`. -/
inductive lib_call where
  | connect (io : connect_io)
  | close
  deriving DecidableEq, Repr

/-- The sessions obtained by a process: for every `galaxy_connect` call of the
sequence that returns 0, the pair (delivery-socket name, control-socket name
`sname`), in call order. The counter is threaded through all calls. -/
def library_sessions (CLI_PATH : String) (E_SERV_LISTEN : Int) (pid : Nat) :
    List lib_call → Nat → galaxy_t → List (String × String)
  | [], _, _ => []
  | .close :: calls, uniqueid, galaxy =>
    library_sessions CLI_PATH E_SERV_LISTEN pid calls uniqueid galaxy
  | .connect io :: calls, uniqueid, galaxy =>
    if (galaxy_connect CLI_PATH E_SERV_LISTEN pid io uniqueid galaxy).ret = 0 then
      ((galaxy_connect CLI_PATH E_SERV_LISTEN pid io uniqueid galaxy).cliname,
        (galaxy_connect CLI_PATH E_SERV_LISTEN pid io uniqueid galaxy).galaxy.sname) ::
      library_sessions CLI_PATH E_SERV_LISTEN pid calls
        (galaxy_connect CLI_PATH E_SERV_LISTEN pid io uniqueid galaxy).uniqueid
        (galaxy_connect CLI_PATH E_SERV_LISTEN pid io uniqueid galaxy).galaxy
    else
      library_sessions CLI_PATH E_SERV_LISTEN pid calls
        (galaxy_connect CLI_PATH E_SERV_LISTEN pid io uniqueid galaxy).uniqueid
        (galaxy_connect CLI_PATH E_SERV_LISTEN pid io uniqueid galaxy).galaxy

/-- Two sessions of one process are distinct: different control names, different
delivery names, and no delivery name of one is the control name of the other. -/
def sessions_distinct (s t : String × String) : Prop :=
  s.2 ≠ t.2 ∧ s.1 ≠ t.1 ∧ s.1 ≠ t.2 ∧ t.1 ≠ s.2

/-! ### thread.c -/

/-- `create_joinable_thread`: `r_create` is the value returned by `pthread_create`.
Returns the function result and whether a thread now exists (`pthread_create`
returned 0). -/
def create_joinable_thread (r_create : Int) : Int × Bool :=
  if r_create < 0 then (-1, false) else (r_create, r_create == 0)

/-- `create_detached_thread`: `r_attr` is the value returned by
`pthread_attr_setdetachstate`, `r_create` the one returned by `pthread_create`
(consulted only if that call is made). Returns the function result and whether a
thread now exists. -/
def create_detached_thread (r_attr r_create : Int) : Int × Bool :=
  if r_attr ≠ 0 then (-2, false)
  else if r_create < 0 then (-1, false)
  else (r_create, r_create == 0)

/-! ### server_thread.c: `server_thread` -/

/-- Results of the calls one round of `server_thread` makes outside the function,
each consulted only if the call is made: `malloc` of the client data,
`serv_listen`, `net_send_uint32` of the acknowledgement, and the two pthread calls
inside `create_detached_thread`. -/
structure handshake_io where
  malloc_ok : Bool
  listenfd : Int
  err_ack : Int
  r_attr : Int
  r_create : Int
  deriving DecidableEq, Repr

/-- What one round of the `server_thread` loop does, in program order. -/
inductive handshake_event where
  | recv_string (result : Option String)
  | recv_uint32 (result : Option Nat)
  | serv_listen (name : String) (fd : Int)
  | send_ack (ack : Nat) (err : Int)
  | spawn_client_request (cliservname : String) (listenfd : Int) (ret : Int) (created : Bool)
  | close_connfd
  deriving DecidableEq, Repr

/-- One round of `while (1)` in `server_thread`: the handshake on one accepted
connection, whose pending frames are `conn` (a failed accept reads as a
connection on which nothing can be received). -/
def server_thread_round (CLI_PATH : String) (conn : List frame) (io : handshake_io) :
    List handshake_event :=
  if !io.malloc_ok then [.close_connfd]
  else
    match net_recv_string conn with
    | (none, _) => [.recv_string none, .close_connfd]
    | (some cliservname, rest) =>
      match net_recv_uint32 rest with
      | (none, _) => [.recv_string (some cliservname), .recv_uint32 none, .close_connfd]
      | (some pid, rest2) =>
        match net_recv_uint32 rest2 with
        | (none, _) =>
          [.recv_string (some cliservname), .recv_uint32 (some pid), .recv_uint32 none,
           .close_connfd]
        | (some id, _) =>
          if io.listenfd < 0 then
            [.recv_string (some cliservname), .recv_uint32 (some pid), .recv_uint32 (some id),
             .serv_listen (server_thread_name CLI_PATH pid id) io.listenfd,
             .send_ack ACK_FAIL io.err_ack, .close_connfd]
          else if io.err_ack < 0 then
            [.recv_string (some cliservname), .recv_uint32 (some pid), .recv_uint32 (some id),
             .serv_listen (server_thread_name CLI_PATH pid id) io.listenfd,
             .send_ack ACK_SUCCESS io.err_ack, .close_connfd]
          else
            [.recv_string (some cliservname), .recv_uint32 (some pid), .recv_uint32 (some id),
             .serv_listen (server_thread_name CLI_PATH pid id) io.listenfd,
             .send_ack ACK_SUCCESS io.err_ack,
             .spawn_client_request cliservname io.listenfd
               (create_detached_thread io.r_attr io.r_create).1
               (create_detached_thread io.r_attr io.r_create).2,
             .close_connfd]

/-- The acknowledgement words a round tried to send, in order. -/
def acks_of : List handshake_event → List Nat
  | [] => []
  | .send_ack a _ :: es => a :: acks_of es
  | _ :: es => acks_of es

/-- A per-client worker thread exists after the round. -/
def worker_spawned : List handshake_event → Bool
  | [] => false
  | .spawn_client_request _ _ _ created :: es => created || worker_spawned es
  | _ :: es => worker_spawned es

/-- The events of a round that come before the first attempt to create the worker. -/
def before_spawn : List handshake_event → List handshake_event
  | [] => []
  | .spawn_client_request _ _ _ _ :: _ => []
  | e :: es => e :: before_spawn es

/-- The control-socket path in the words of the protocol description: `CLI_PATH`,
the decimal pid zero-padded to at least five digits, a dot, the decimal id. -/
def spec_control_path (CLI_PATH : String) (pid id : Nat) : String :=
  String.mk (CLI_PATH.data
    ++ (List.replicate (5 - (decimal_chars pid).length) '0' ++ decimal_chars pid)
    ++ '.' :: decimal_chars id)

/-- The name a handshake round passes to `serv_listen`, if it gets that far. -/
def listened_name : List handshake_event → Option String
  | [] => none
  | .serv_listen name _ :: _ => some name
  | _ :: es => listened_name es

/-- Some receive of the handshake round failed. -/
def handshake_recv_failed : List handshake_event → Bool
  | [] => false
  | .recv_string none :: _ => true
  | .recv_uint32 none :: _ => true
  | _ :: es => handshake_recv_failed es

/-! ### inotify_utils.c: the watch registry `inotify_wds` -/

/-- The GLib hash table `inotify_wds` (`g_int_hash`, `g_int_equal`): watch
descriptors mapped to directory names, at most one entry per descriptor. -/
abbrev wd_table := List (Int × String)

/-- `g_hash_table_lookup`: the value stored under the key, `NULL` if there is none. -/
def g_hash_table_lookup (t : wd_table) (k : Int) : Option String :=
  (t.find? (fun e => e.1 == k)).map (fun e => e.2)

/-- `g_hash_table_insert`: stores the value under the key, replacing the value of
an entry that has an equal key. -/
def g_hash_table_insert (t : wd_table) (k : Int) (v : String) : wd_table :=
  (k, v) :: t.filter (fun e => e.1 != k)

/-- Calls made by the watch functions, in program order, with the values the
kernel returned. -/
inductive watch_call where
  | inotify_add_watch (dirname : String) (mask : Nat) (ret : Int)
  | g_hash_table_insert (wd : Int) (dirname : String)
  | inotify_rm_watch (wd : Nat) (ret : Int)
  deriving DecidableEq, Repr

/-- What a watch function leaves behind: its return value, the registry, and the
calls it made. -/
structure watch_result where
  ret : Int
  registry : wd_table
  calls : List watch_call
  deriving DecidableEq, Repr

/-- `galaxy_add_watch`. `malloc_ok` tells whether `malloc (sizeof (int))`
succeeded and `kernel_wd` is the value `inotify_add_watch` returns (consulted only
if the call is made). The stored value is `g_strdup (dirname)`. -/
def galaxy_add_watch (dirname : String) (mask : Nat) (malloc_ok : Bool) (kernel_wd : Int)
    (registry : wd_table) : watch_result :=
  if !malloc_ok then ⟨-1, registry, []⟩
  else if kernel_wd < 0 then
    ⟨-1, registry, [.inotify_add_watch dirname mask kernel_wd]⟩
  else
    ⟨kernel_wd, g_hash_table_insert registry kernel_wd dirname,
      [.inotify_add_watch dirname mask kernel_wd, .g_hash_table_insert kernel_wd dirname]⟩

/-- `galaxy_remove_watch`: `kernel_ret` is the value `inotify_rm_watch` returns. -/
def galaxy_remove_watch (wd : Nat) (kernel_ret : Int) (registry : wd_table) : watch_result :=
  if kernel_ret < 0 then ⟨-1, registry, [.inotify_rm_watch wd kernel_ret]⟩
  else ⟨kernel_ret, registry, [.inotify_rm_watch wd kernel_ret]⟩

/-- A path name is absolute: it starts with a slash. -/
def is_absolute_path (p : String) : Bool :=
  p.data.head? == some '/'

/-! ### Session rules and the delivery decision (watch.c, not among the sources) -/

/-- Modelled from the spec: the kind of a Rule, include or exclude. The rule
store and the dispatcher (`watch.c`) are missing from the sources. -/
inductive rule_kind where
  | include_rule
  | exclude_rule
  deriving DecidableEq, Repr

/-- Modelled from the spec: a Rule is (kind, mask, regex); `watch.c` is missing
from the sources. -/
structure rule where
  kind : rule_kind
  mask : Nat
  regex : String
  deriving DecidableEq, Repr

/-- Modelled from the spec: the part of a ClientSession the dispatcher consults,
its Rules in insertion order and its ignore mask (a 32-bit word); `watch.c` is
missing from the sources. -/
structure client_session where
  rules : List rule
  ignore_mask : Nat
  deriving DecidableEq, Repr

/-- Modelled from the spec: `effective_mask = event.mask & ~session.ignore_mask`
on 32-bit words (dispatcher step 1; `watch.c` is missing from the sources). -/
def effective_mask (s : client_session) (event_mask : Nat) : Nat :=
  event_mask &&& (s.ignore_mask ^^^ 4294967295)

/-- Modelled from the spec: "a rule matches when rule.mask & event.mask ≠ 0 and
rule.regex matches the absolute path" (`watch.c` is missing from the sources).
`regexec regex path` is the POSIX regular-expression match. -/
def rule_matches (regexec : String → String → Bool) (event_mask : Nat) (path : String)
    (r : rule) : Bool :=
  (r.mask &&& event_mask != 0) && regexec r.regex path

/-- Modelled from the spec: the dispatcher's decision for one session and one
event (`watch.c` is missing from the sources). If the effective mask is zero the
session is skipped; otherwise the rules are walked in order with a tentative
verdict, initially "not matched": an include match sets it to accepted, an
exclude match to rejected, and the verdict after the last rule decides. -/
def spec_deliver (regexec : String → String → Bool) (s : client_session) (event_mask : Nat)
    (path : String) : Bool :=
  if effective_mask s event_mask = 0 then false
  else
    s.rules.foldl
      (fun verdict r =>
        if rule_matches regexec event_mask path r then r.kind == .include_rule else verdict)
      false

/-- The last rule of a session, in insertion order, that matches an event. -/
def last_matching_rule (regexec : String → String → Bool) (s : client_session)
    (event_mask : Nat) (path : String) : Option rule :=
  (s.rules.filter (rule_matches regexec event_mask path)).getLast?

/-! ### galaxyd.c: the lock file -/

/-- The lock file as `already_running` sees it: the process holding the fcntl
write lock on it, if any, and its bytes. A record lock is released when its
holder closes a descriptor of the file. -/
structure lockfile_state where
  holder : Option Nat
  contents : List Char
  deriving DecidableEq, Repr

/-- Outcome of `lockfile (fd)`, that is of `fcntl (fd, F_SETLK, &fl)` with a write
lock on the whole file: success, failure with `EACCES` or `EAGAIN` (a conflicting
lock), or failure with another `errno`. -/
inductive lock_outcome where
  | locked
  | busy
  | failed
  deriving DecidableEq, Repr

/-- `lockfile`, called by process `pid`: the request conflicts exactly when another
process holds the lock; `lock_error` says that `fcntl` fails for another reason. -/
def lockfile (pid : Nat) (lock_error : Bool) (st : lockfile_state) :
    lock_outcome × lockfile_state :=
  if lock_error then (.failed, st)
  else if st.holder.isSome && st.holder != some pid then (.busy, st)
  else (.locked, { st with holder := some pid })

/-- `close (fd)` on a descriptor of the lock file by process `pid`: the record
locks the process holds on the file are released. -/
def close_lockfile (pid : Nat) (st : lockfile_state) : lockfile_state :=
  if st.holder = some pid then { st with holder := none } else st

/-- `already_running`, run by process `pid`; `open_fd` is the result of `open`.
After a successful `lockfile` the file is truncated, the pid is written with
`sprintf (buf, "%ld", ...)` as `strlen (buf) + 1` bytes, and the descriptor is
closed before 0 is returned. -/
def already_running (pid : Nat) (open_fd : Int) (lock_error : Bool) (st : lockfile_state) :
    Int × lockfile_state :=
  if open_fd < 0 then (-1, st)
  else
    match lockfile pid lock_error st with
    | (.busy, st1) => (-1, close_lockfile pid st1)
    | (.failed, st1) => (-1, st1)
    | (.locked, st1) =>
      (0, close_lockfile pid { st1 with contents := decimal_chars pid ++ [Char.ofNat 0] })

/-! ### signal_thread.c -/

/-- `SIGINT` -/
def SIGINT : Int := 2

/-- `SIGQUIT` -/
def SIGQUIT : Int := 3

/-- The threads of galaxyd.c that `signal_handler` may cancel. -/
inductive thread_name where
  | crawler
  | watcher
  | server
  deriving DecidableEq, Repr

/-- What `signal_handler` does, in program order. -/
inductive signal_event where
  | pthread_cancel (t : thread_name)
  | warning (signo : Int)
  deriving DecidableEq, Repr

/-- A run of the signal-handling thread over the signals `sigwait` returns. -/
structure handler_run where
  /-- Events in order. -/
  trace : List signal_event
  /-- The thread function has returned. -/
  returned : Bool
  /-- Signals never waited for because the handler had returned. -/
  unhandled : List Int
  deriving DecidableEq, Repr

/-- `signal_handler`: the `while (1)` loop over the successive signal numbers
stored by `sigwait`. When the signals are used up the handler is blocked in
`sigwait` and has not returned. -/
def signal_handler : List Int → handler_run
  | [] => { trace := [], returned := false, unhandled := [] }
  | signo :: rest =>
    if signo = SIGINT then
      { trace := [.pthread_cancel .crawler, .pthread_cancel .watcher, .pthread_cancel .server],
        returned := true, unhandled := rest }
    else if signo = SIGQUIT then signal_handler rest
    else
      { signal_handler rest with trace := .warning signo :: (signal_handler rest).trace }

/-- `create_signal_thread`: `sigmask_err` is the result of `pthread_sigmask`,
`r_create` that of `pthread_create` inside `create_joinable_thread`. -/
def create_signal_thread (sigmask_err r_create : Int) : Int :=
  if sigmask_err ≠ 0 then sigmask_err
  else (create_joinable_thread r_create).1

/-! ### server_thread.c: `create_server_thread` -/

/-- `create_server_thread`: `malloc_ok` tells whether the `malloc` of the
descriptor copy succeeded, `r_create` is the result of `pthread_create`. -/
def create_server_thread (malloc_ok : Bool) (r_create : Int) : Int :=
  if !malloc_ok then -1
  else (create_joinable_thread r_create).1

/-! ### galaxyd.c: start-up of `main` -/

/-- Results of the calls `main` makes during start-up, each consulted only if the
call is made. `opts` are the successive values returned by `getopt_long` before
it returns -1; `err_iwatch` and `err_crawler` are the results of
`create_iwatch_thread` and `create_crawler_thread`. -/
structure startup_io where
  already_running_ret : Int
  dirs_ok : Bool
  prune_ok : Bool
  opts : List Char
  listenfd : Int
  inotify_fd : Int
  sigmask_err : Int
  signal_create : Int
  server_malloc_ok : Bool
  server_create : Int
  err_iwatch : Int
  err_crawler : Int
  deriving DecidableEq, Repr

/-- The option loop of `main`: `-h` and `-v` exit with status 0 (`some 0`), `?`
sets `err`; the result `none` means the loop ended, with the final `err` flag. -/
def main_options : List Char → Bool → Option Int × Bool
  | [], err => (none, err)
  | c :: cs, err =>
    if c = 'h' then (some 0, err)
    else if c = 'v' then (some 0, err)
    else if c = '?' then main_options cs true
    else main_options cs err

/-- `main` up to the creation of the four threads: `some status` when the process
terminates during start-up with that exit status (`exit (status)` or
`return status`), `none` when start-up goes through and `main` proceeds to
`pthread_join`. -/
def main_startup (io : startup_io) : Option Int :=
  if io.already_running_ret = -1 then some 1
  else if !io.dirs_ok then some 1
  else if !io.prune_ok then some 1
  else
    match main_options io.opts false with
    | (some status, _) => some status
    | (none, true) => some 1
    | (none, false) =>
      if io.listenfd < 0 then some 1
      else if io.inotify_fd < 0 then some 0
      else if create_signal_thread io.sigmask_err io.signal_create < 0 then some 1
      else if create_server_thread io.server_malloc_ok io.server_create < 0 then some 1
      else if io.err_iwatch < 0 then some 1
      else if io.err_crawler < 0 then some 1
      else none

/-! ### galaxy.h: event masks -/

/-- `GAL_ACCESS` -/
def GAL_ACCESS : Nat := 0x00000001

/-- `GAL_MODIFY` -/
def GAL_MODIFY : Nat := 0x00000002

/-- `GAL_ATTRIB` -/
def GAL_ATTRIB : Nat := 0x00000004

/-- `GAL_CLOSE_WRITE` -/
def GAL_CLOSE_WRITE : Nat := 0x00000008

/-- `GAL_CLOSE_NOWRITE` -/
def GAL_CLOSE_NOWRITE : Nat := 0x00000010

/-- `GAL_OPEN` -/
def GAL_OPEN : Nat := 0x00000020

/-- `GAL_MOVED_FROM` -/
def GAL_MOVED_FROM : Nat := 0x00000040

/-- `GAL_MOVED_TO` -/
def GAL_MOVED_TO : Nat := 0x00000080

/-- `GAL_CREATE` -/
def GAL_CREATE : Nat := 0x00000100

/-- `GAL_DELETE` -/
def GAL_DELETE : Nat := 0x00000200

/-- `GAL_DELETE_SELF` -/
def GAL_DELETE_SELF : Nat := 0x00000400

/-- `GAL_UNMOUNT` -/
def GAL_UNMOUNT : Nat := 0x00002000

/-- `GAL_Q_OVERFLOW` -/
def GAL_Q_OVERFLOW : Nat := 0x00004000

/-- `GAL_IGNORED` -/
def GAL_IGNORED : Nat := 0x00008000

/-- `GAL_ISDIR` -/
def GAL_ISDIR : Nat := 0x40000000

/-- `GAL_ONESHOT` -/
def GAL_ONESHOT : Nat := 0x80000000

/-- `GAL_ALL_EVENTS`, with the operands in the order of the header. -/
def GAL_ALL_EVENTS : Nat :=
  GAL_ACCESS ||| GAL_MODIFY ||| GAL_ATTRIB ||| GAL_CLOSE_WRITE ||| GAL_CLOSE_NOWRITE |||
    GAL_OPEN ||| GAL_MOVED_FROM ||| GAL_MOVED_TO ||| GAL_DELETE ||| GAL_CREATE |||
    GAL_DELETE_SELF

/-- The eleven events user space can watch for, in the order of the data model. -/
def gal_user_events : List Nat :=
  [GAL_ACCESS, GAL_MODIFY, GAL_ATTRIB, GAL_CLOSE_WRITE, GAL_CLOSE_NOWRITE, GAL_OPEN,
   GAL_MOVED_FROM, GAL_MOVED_TO, GAL_CREATE, GAL_DELETE, GAL_DELETE_SELF]

/-- The five flags that are sent as needed or are special. -/
def gal_other_flags : List Nat :=
  [GAL_UNMOUNT, GAL_Q_OVERFLOW, GAL_IGNORED, GAL_ISDIR, GAL_ONESHOT]

/-- A 32-bit word with exactly one bit set. -/
def is_single_bit (v : Nat) : Bool :=
  (List.range 32).any (fun k => v == 2 ^ k)

/-! ### event_queue.c: all state-changing calls -/

/-- A state-changing call on a queue: `queue_enqueue`, `queue_dequeue` or
`queue_make_empty`. -/
inductive queue_call (α : Type) where
  | enqueue (d : Option α)
  | dequeue
  | make_empty

/-- Effect of one state-changing call. -/
def queue_call_apply (q : queue_struct α) : queue_call α → queue_struct α
  | .enqueue d => queue_enqueue d q
  | .dequeue => queue_dequeue q
  | .make_empty => queue_make_empty q

/-- Effect of a sequence of state-changing calls, first call first. -/
def queue_calls_run (calls : List (queue_call α)) (q : queue_struct α) : queue_struct α :=
  calls.foldl queue_call_apply q

/-- The calls of a trace that change the session registry: the two rule
insertions, the ignore-mask update and the removal of the session. -/
def session_calls : List server_event → List server_event
  | [] => []
  | .add_galaxy_watch n m r :: es => .add_galaxy_watch n m r :: session_calls es
  | .add_galaxy_ignore_watch n m r :: es => .add_galaxy_ignore_watch n m r :: session_calls es
  | .set_galaxy_ignore_mask n m :: es => .set_galaxy_ignore_mask n m :: session_calls es
  | .remove_galaxy_watches n :: es => .remove_galaxy_watches n :: session_calls es
  | _ :: es => session_calls es

/-! ### C strings in a sized buffer -/

/-- `strcpy (dest, src)` into a buffer of `size` bytes: the string the buffer then
holds, or `none` when `src` with its terminating NUL does not fit (a write past
the buffer). A C string is the list of its characters before the NUL. -/
def strcpy (size : Nat) (src : List Char) : Option (List Char) :=
  if src.length + 1 ≤ size then some src else none

/-- `strcat (dest, src)` on a buffer of `size` bytes holding `dest`: the string the
buffer then holds, or `none` when the result with its NUL does not fit or an
earlier write had already gone past the buffer. -/
def strcat (size : Nat) (dest : Option (List Char)) (src : List Char) : Option (List Char) :=
  match dest with
  | none => none
  | some d => if d.length + src.length + 1 ≤ size then some (d ++ src) else none

/-! ### plogd.c: the watch regular expression -/

/-- `root_dir[strlen (root_dir) - 1]`: the last character of the string; for the
empty string the index wraps and the byte read is whatever precedes the string
in memory, `before`. -/
def root_dir_last (root_dir : List Char) (before : Char) : Char :=
  root_dir.getLast?.getD before

/-- The value of `regexp_len` in `main` of plogd: `strlen (root_dir) + 4`, or 4
without `-r`, plus one when a root is given that does not end in a slash. -/
def plogd_regexp_len (root_dir : Option (List Char)) (before : Char) : Int :=
  match root_dir with
  | some r =>
    if root_dir_last r before ≠ '/' then ((r.length : Int) + 4) + 1 else (r.length : Int) + 4
  | none => 4

/-- The string built in `char regexp[regexp_len]` by `main` of plogd: `strcpy` of
"^", then `strcat` of the root and, unless it ends in a slash, of "/", then
`strcat` of ".*". `none` when a write goes past the buffer. -/
def plogd_regexp (root_dir : Option (List Char)) (before : Char) : Option (List Char) :=
  match root_dir with
  | some r =>
    if root_dir_last r before ≠ '/' then
      strcat (plogd_regexp_len root_dir before).toNat
        (strcat (plogd_regexp_len root_dir before).toNat
          (strcat (plogd_regexp_len root_dir before).toNat
            (strcpy (plogd_regexp_len root_dir before).toNat ['^']) r) ['/']) ['.', '*']
    else
      strcat (plogd_regexp_len root_dir before).toNat
        (strcat (plogd_regexp_len root_dir before).toNat
          (strcpy (plogd_regexp_len root_dir before).toNat ['^']) r) ['.', '*']
  | none =>
    strcat (plogd_regexp_len root_dir before).toNat
      (strcpy (plogd_regexp_len root_dir before).toNat ['^']) ['.', '*']

/-- The watch regex in words: "^", the root, "/" unless the root already ends in
"/", then ".*"; just "^.*" without a root. -/
def spec_plogd_regexp : Option (List Char) → List Char
  | some r => ['^'] ++ r ++ (if r.getLast? = some '/' then [] else ['/']) ++ ['.', '*']
  | none => ['^', '.', '*']

/-! ### galaxyd.c: the root directories -/

/-- Modelled from the spec: `list_push` of list.c, which is not among the sources;
by its declaration in list.h it inserts a node at the tail of the list, so the
list keeps insertion order. The allocation is taken to succeed. -/
def list_push (list : List (List Char)) (key : List Char) : List (List Char) :=
  list ++ [key]

/-- The macro `list_size (list)`. -/
def list_size (list : List (List Char)) : Nat :=
  list.length

/-- `strtok (str, ":")`: `saved` is the position kept from the previous call, used
when `str` is `NULL`. Leading colons are skipped; if nothing is left the result is
`NULL`, otherwise the token runs up to the next colon (or the end) and the saved
position is just after that colon. -/
def strtok (str : Option (List Char)) (saved : List Char) : Option (List Char) × List Char :=
  if (str.getD saved).dropWhile (fun c => c == ':') = [] then (none, [])
  else
    (some (((str.getD saved).dropWhile (fun c => c == ':')).takeWhile (fun c => c != ':')),
      ((((str.getD saved).dropWhile (fun c => c == ':')).dropWhile (fun c => c != ':')).drop 1))

/-- The loop `while (dir = strtok (path, ":")) { list_push (dirs, strdup (dir));
path = NULL; }` of `main`. `none` means the fuel ran out before `strtok`
returned `NULL`. -/
def strtok_push_loop :
    Nat → Option (List Char) → List Char → List (List Char) → Option (List (List Char))
  | 0, _, _, _ => none
  | fuel + 1, str, saved, dirs =>
    match strtok str saved with
    | (none, _) => some dirs
    | (some dir, saved2) => strtok_push_loop fuel none saved2 (list_push dirs dir)

/-- The list `dirs` that `main` of galaxyd hands to `create_crawler_thread`:
`lone_args` are the arguments left after the options, `search_path` and `PWD` the
values of `getenv ("GALAXY_SEARCH_PATH")` and `getenv ("PWD")` (`none` for `NULL`). -/
def main_dirs (lone_args : List (List Char)) (search_path PWD : Option (List Char))
    (fuel : Nat) : Option (List (List Char)) :=
  match
    (match search_path with
     | some path => strtok_push_loop fuel (some path) [] (lone_args.foldl list_push [])
     | none => some (lone_args.foldl list_push []))
  with
  | none => none
  | some dirs =>
    if list_size dirs = 0 then
      match PWD with
      | some cwd => some (list_push dirs cwd)
      | none => some dirs
    else some dirs

/-- The non-empty colon-separated entries of a path list, in order. -/
def spec_path_entries (path : List Char) : List (List Char) :=
  (path.splitOn ':').filter (fun e => !e.isEmpty)

/-- The root directories in words: the positional arguments in order, followed by
the non-empty entries of the search path in order; if there are none of either,
the current working directory alone (when `PWD` is set). -/
def spec_root_dirs (lone_args : List (List Char)) (search_path PWD : Option (List Char)) :
    List (List Char) :=
  if lone_args ++ (search_path.map spec_path_entries).getD [] = [] then PWD.toList
  else lone_args ++ (search_path.map spec_path_entries).getD []

/-! ## Theorems -/

/-! ### event_queue.c -/

theorem queue_holds_create (n : Int) (hn : 2 ≤ n) (g : Int → Option α) :
    queue_holds n (queue_create n g) [] := by
  refine ⟨rfl, ?_, ?_, ?_, ?_, rfl, ?_, ?_, ?_⟩ <;>
    simp [queue_create, queue_make_empty, next_position, ring_pos] <;> omega

theorem queue_holds_enqueue {n : Int} {q : queue_struct α} {l : List (Option α)}
    (h : queue_holds n q l) (hf : queue_full q = false) (d : Option α) :
    queue_holds n (queue_enqueue d q) (l ++ [d]) := by
  obtain ⟨cap, f0, f1, r0, r1, sz, szle, rr, sl⟩ := h
  have hne : q.size ≠ n := by
    simpa [queue_full, cap] using hf
  have hlen : (l.length : Int) < n := by omega
  have hnp : next_position q.rear q < n ∧ 0 ≤ next_position q.rear q := by
    unfold next_position; split <;> omega
  refine ⟨?_, ?_, ?_, ?_, ?_, ?_, ?_, ?_, ?_⟩
  · simp [queue_enqueue, hf, cap]
  · simp [queue_enqueue, hf, f0]
  · simp [queue_enqueue, hf, f1]
  · simp [queue_enqueue, hf]; exact hnp.2
  · simp [queue_enqueue, hf]; exact hnp.1
  · simp [queue_enqueue, hf, sz]
  · simp [queue_enqueue, hf]; omega
  · simp only [queue_enqueue, hf, Bool.false_eq_true, if_false]
    rw [rr]
    simp only [next_position, ring_pos, cap]
    split_ifs <;> omega
  · intro i hi
    simp only [queue_enqueue, hf, Bool.false_eq_true, if_false]
    rw [rr]
    rw [List.length_append, List.length_singleton] at hi
    by_cases hil : i < l.length
    · have hpos : ring_pos n q.front i ≠ ring_pos n q.front q.size := by
        simp only [ring_pos]; split_ifs <;> omega
      rw [if_neg hpos, sl i hil, List.getD_append _ _ _ _ hil]
    · have hieq : i = l.length := by omega
      subst hieq
      rw [sz, if_pos rfl, List.getD_append_right _ _ _ _ (le_refl _)]
      simp

theorem queue_holds_dequeue {n : Int} {q : queue_struct α} {l : List (Option α)}
    (h : queue_holds n q l) : queue_holds n (queue_dequeue q) l.tail := by
  obtain ⟨cap, f0, f1, r0, r1, sz, szle, rr, sl⟩ := h
  cases l with
  | nil =>
    have : queue_empty q = true := by simp [queue_empty, sz]
    simp only [queue_dequeue, this, List.tail_nil]
    exact ⟨cap, f0, f1, r0, r1, sz, szle, rr, sl⟩
  | cons x t =>
    have hsz : q.size = (t.length : Int) + 1 := by simpa using sz
    have hne : queue_empty q = false := by
      simp [queue_empty]; omega
    have hnp : next_position q.front q < n ∧ 0 ≤ next_position q.front q := by
      unfold next_position; split <;> omega
    refine ⟨?_, ?_, ?_, ?_, ?_, ?_, ?_, ?_, ?_⟩
    · simp [queue_dequeue, hne, cap]
    · simp [queue_dequeue, hne]; exact hnp.2
    · simp [queue_dequeue, hne]; exact hnp.1
    · simp [queue_dequeue, hne, r0]
    · simp [queue_dequeue, hne, r1]
    · simp [queue_dequeue, hne, hsz]
    · simp [queue_dequeue, hne]; omega
    · simp only [queue_dequeue, hne, Bool.not_false, if_true]
      have : next_position q.rear { q with size := q.size - 1, front := next_position q.front q }
          = next_position q.rear q := rfl
      rw [this, rr]
      simp only [next_position, ring_pos, cap]
      split_ifs <;> omega
    · intro i hi
      simp only [List.tail_cons] at hi ⊢
      simp only [queue_dequeue, hne, Bool.not_false, if_true]
      have h1 := sl (i + 1) (by simpa using hi)
      simp only [List.getD_cons_succ] at h1
      rw [← h1]
      congr 1
      simp only [next_position, ring_pos, cap]
      push_cast
      split_ifs <;> omega

theorem queue_holds_front {n : Int} {q : queue_struct α} {l : List (Option α)}
    (h : queue_holds n q l) : queue_front q = l.headD none := by
  cases l with
  | nil =>
    have : queue_empty q = true := by simp [queue_empty, h.size_eq]
    simp [queue_front, this]
  | cons x t =>
    have hsz : q.size = (t.length : Int) + 1 := by simpa using h.size_eq
    have hne : queue_empty q = false := by
      simp [queue_empty]; omega
    have h0 := h.slots 0 (by simp)
    have hp : ring_pos n q.front ((0 : Nat) : Int) = q.front := by
      have := h.front_hi
      simp [ring_pos, this]
    rw [hp] at h0
    simp [queue_front, hne, h0]

theorem queue_holds_drain {n : Int} {l : List (Option α)} :
    ∀ {q : queue_struct α}, queue_holds n q l → ∀ k : Nat, l.length ≤ k → queue_drain k q = l := by
  induction l with
  | nil =>
    intro q h k _
    have : queue_empty q = true := by simp [queue_empty, h.size_eq]
    cases k <;> simp [queue_drain, this]
  | cons x t ih =>
    intro q h k hk
    have hsz : q.size = (t.length : Int) + 1 := by simpa using h.size_eq
    have hne : queue_empty q = false := by
      simp [queue_empty]; omega
    cases k with
    | zero => simp at hk
    | succ k =>
      have hfr := queue_holds_front h
      have hd := ih (queue_holds_dequeue h) k (by simpa using hk)
      simp only [List.tail_cons] at hd
      simp [queue_drain, hne, hfr, hd]

theorem queue_holds_contents {n : Int} {q : queue_struct α} {l : List (Option α)}
    (h : queue_holds n q l) : queue_contents q = l := by
  unfold queue_contents
  exact queue_holds_drain h _ (by rw [h.size_eq]; simp)

theorem queue_run_holds {n : Int} (ops : List (queue_op α)) :
    ∀ {q : queue_struct α} {l : List (Option α)}, queue_holds n q l →
      no_enqueue_on_full ops q →
      ∃ l2, queue_holds n (queue_run ops q) l2 ∧
        l ++ queue_enqueued ops = queue_departed ops q ++ l2 := by
  induction ops with
  | nil =>
    intro q l h _
    exact ⟨l, h, by simp [queue_enqueued, queue_departed]⟩
  | cons op ops ih =>
    intro q l h hok
    cases op with
    | enqueue d =>
      obtain ⟨hnf, hrest⟩ := hok
      obtain ⟨l2, h2, e2⟩ := ih (queue_holds_enqueue h hnf d) hrest
      refine ⟨l2, h2, ?_⟩
      simpa [queue_enqueued, queue_departed] using e2
    | dequeue =>
      obtain ⟨l2, h2, e2⟩ := ih (queue_holds_dequeue h) hok
      refine ⟨l2, h2, ?_⟩
      cases l with
      | nil =>
        have : queue_empty q = true := by simp [queue_empty, h.size_eq]
        simpa [queue_enqueued, queue_departed, this] using e2
      | cons x t =>
        have hsz : q.size = (t.length : Int) + 1 := by simpa using h.size_eq
        have hne : queue_empty q = false := by
          simp [queue_empty]; omega
        have hfr := queue_holds_front h
        simp only [List.headD_cons] at hfr
        simp only [List.tail_cons] at e2
        simp [queue_enqueued, queue_departed, hne, hfr, e2]

/-- C1 (refuted as stated): a queue of capacity 2 that already holds two events is
handed a third one; `queue_enqueue` returns the queue as it was, the third event is
in no slot and is not among the events the consumer will take out. -/
theorem queue_enqueue_on_full_drops_event :
    queue_full (queue_enqueue (some 2) (queue_enqueue (some 1)
        (queue_create 2 (fun _ => (none : Option Nat))))) = true ∧
    (queue_enqueue (some 3) (queue_enqueue (some 2) (queue_enqueue (some 1)
        (queue_create 2 (fun _ => (none : Option Nat)))))).size = 2 ∧
    queue_contents (queue_enqueue (some 3) (queue_enqueue (some 2) (queue_enqueue (some 1)
        (queue_create 2 (fun _ => (none : Option Nat)))))) = [some 1, some 2] ∧
    ∀ i : Int, (queue_enqueue (some 3) (queue_enqueue (some 2) (queue_enqueue (some 1)
        (queue_create 2 (fun _ => (none : Option Nat)))))).array i ≠ some 3 := by
  refine ⟨by decide, by decide, by decide, ?_⟩
  intro i
  simp only [queue_enqueue, queue_full, queue_create, queue_make_empty, next_position]
  norm_num
  split_ifs <;> simp

/-- C1 (amended): `queue_enqueue` stores the event exactly when the queue is not full.
On a full queue the call returns the queue unchanged (the event is not stored); on
any other queue state `size` grows by one and the event is in `array[rear]` for the
advanced `rear`, and on a well-formed queue holding `l` the events held afterwards
are `l` followed by the new event. -/
theorem queue_enqueue_stores_unless_full (d : Option α) (q : queue_struct α) :
    (queue_full q = true → queue_enqueue d q = q) ∧
    (queue_full q = false →
      (queue_enqueue d q).size = q.size + 1 ∧
      (queue_enqueue d q).rear = next_position q.rear q ∧
      (queue_enqueue d q).array (queue_enqueue d q).rear = d) ∧
    (∀ (n : Int) (l : List (Option α)), queue_holds n q l → queue_full q = false →
      queue_contents (queue_enqueue d q) = l ++ [d]) := by
  refine ⟨?_, ?_, ?_⟩
  · intro hf
    simp [queue_enqueue, hf]
  · intro hf
    simp [queue_enqueue, hf]
  · intro n l h hf
    exact queue_holds_contents (queue_holds_enqueue h hf d)

/-- Witness for C1 (amended): the three cases at concrete queues of capacity 2. -/
theorem queue_enqueue_stores_unless_full_witness :
    queue_enqueue (some 3) (queue_enqueue (some 2) (queue_enqueue (some 1)
        (queue_create 2 (fun _ => (none : Option Nat))))) =
      queue_enqueue (some 2) (queue_enqueue (some 1)
        (queue_create 2 (fun _ => (none : Option Nat)))) ∧
    (queue_enqueue (some 7) (queue_create 2 (fun _ => (none : Option Nat)))).size = 0 + 1 ∧
    queue_contents (queue_enqueue (some 7) (queue_create 2 (fun _ => (none : Option Nat))))
      = [] ++ [some 7] :=
  ⟨(queue_enqueue_stores_unless_full (some 3) (queue_enqueue (some 2) (queue_enqueue (some 1)
        (queue_create 2 (fun _ => (none : Option Nat)))))).1 (by decide),
   ((queue_enqueue_stores_unless_full (some 7)
        (queue_create 2 (fun _ => (none : Option Nat)))).2.1 (by decide)).1,
   (queue_enqueue_stores_unless_full (some 7)
        (queue_create 2 (fun _ => (none : Option Nat)))).2.2 2 []
      (queue_holds_create 2 (by decide) _) (by decide)⟩

/-- C2: on a queue created with capacity `n ≥ 2`, along any sequence of
`queue_enqueue` / `queue_dequeue` calls none of whose enqueues meets a full queue,
the elements that have left the queue followed by the elements still in it are
exactly the enqueued elements in enqueue order, and `queue_front` returns the
oldest enqueued element not yet dequeued (`NULL` if there is none). -/
theorem queue_fifo_order (n : Int) (hn : 2 ≤ n) (g : Int → Option α)
    (ops : List (queue_op α)) (hok : no_enqueue_on_full ops (queue_create n g)) :
    queue_departed ops (queue_create n g) ++ queue_contents (queue_run ops (queue_create n g))
      = queue_enqueued ops ∧
    queue_front (queue_run ops (queue_create n g))
      = ((queue_enqueued ops).drop (queue_departed ops (queue_create n g)).length).headD none := by
  obtain ⟨l2, h2, e2⟩ := queue_run_holds ops (queue_holds_create n hn g) hok
  simp only [List.nil_append] at e2
  rw [queue_holds_contents h2, queue_holds_front h2, e2]
  simp

/-- Witness for C2: capacity 2, calls enqueue 1, enqueue 2, dequeue, enqueue 3. -/
theorem queue_fifo_order_witness :
    (2 : Int) ≤ 2 ∧
    no_enqueue_on_full
      [queue_op.enqueue (some 1), .enqueue (some 2), .dequeue, .enqueue (some 3)]
      (queue_create 2 (fun _ => (none : Option Nat))) ∧
    queue_departed [queue_op.enqueue (some 1), .enqueue (some 2), .dequeue, .enqueue (some 3)]
        (queue_create 2 (fun _ => (none : Option Nat))) ++
      queue_contents (queue_run
        [queue_op.enqueue (some 1), .enqueue (some 2), .dequeue, .enqueue (some 3)]
        (queue_create 2 (fun _ => (none : Option Nat)))) = [some 1, some 2, some 3] ∧
    queue_front (queue_run
        [queue_op.enqueue (some 1), .enqueue (some 2), .dequeue, .enqueue (some 3)]
        (queue_create 2 (fun _ => (none : Option Nat)))) = some 2 :=
  ⟨by decide, ⟨by decide, by decide, by decide, trivial⟩,
   (queue_fifo_order 2 (by decide) (fun _ => (none : Option Nat))
      [queue_op.enqueue (some 1), .enqueue (some 2), .dequeue, .enqueue (some 3)]
      ⟨by decide, by decide, by decide, trivial⟩).1,
   (queue_fifo_order 2 (by decide) (fun _ => (none : Option Nat))
      [queue_op.enqueue (some 1), .enqueue (some 2), .dequeue, .enqueue (some 3)]
      ⟨by decide, by decide, by decide, trivial⟩).2⟩

/-! ### inotify_utils.c -/

theorem bytes_at_length (buffer : Nat → Nat) (off n : Nat) :
    (bytes_at buffer off n).length = n := by
  simp [bytes_at]

theorem bytes_at_add (buffer : Nat → Nat) (off a b : Nat) :
    bytes_at buffer off (a + b) = bytes_at buffer off a ++ bytes_at buffer (off + a) b := by
  unfold bytes_at
  rw [← List.map_append, List.range'_append_1, Nat.add_comm b a]

theorem bytes_at_split {buffer : Nat → Nat} {off : Nat} {x y : List Nat}
    (h : bytes_at buffer off (x ++ y).length = x ++ y) :
    bytes_at buffer off x.length = x ∧ bytes_at buffer (off + x.length) y.length = y := by
  rw [List.length_append, bytes_at_add] at h
  exact List.append_inj h (by simp [bytes_at_length])

theorem read_events_loop_records (lay : inotify_layout) (hpos : 0 < lay.sizeof_event)
    (buffer : Nat → Nat) (r : Nat) (recs : List (List Nat)) :
    ∀ (fuel off : Nat) (count : Int) (q : queue_struct (List Nat)),
      (∀ rec ∈ recs, is_record lay rec) →
      bytes_at buffer off recs.flatten.length = recs.flatten →
      r = off + recs.flatten.length →
      recs.length ≤ fuel →
      read_events_loop lay buffer r fuel off count q
        = some (count + recs.length, queue_enqueue_all recs q) := by
  induction recs with
  | nil =>
    intro fuel off count q _ _ hr _
    have : ¬ off < r := by simp [hr]
    cases fuel <;> simp [read_events_loop, this, queue_enqueue_all]
  | cons rec recs ih =>
    intro fuel off count q hrec hbuf hr hfuel
    obtain ⟨hlen, hsize⟩ := hrec rec (List.mem_cons_self _ _)
    rw [List.flatten_cons] at hbuf hr
    obtain ⟨h1, h2⟩ := bytes_at_split hbuf
    have hlt : off < r := by
      rw [hr, List.length_append]; omega
    have hhdr : bytes_at buffer off lay.sizeof_event = rec.take lay.sizeof_event := by
      have hsplit : rec.length = lay.sizeof_event + (rec.length - lay.sizeof_event) := by omega
      have h3 := h1
      rw [hsplit, bytes_at_add] at h3
      have h4 := congrArg (List.take lay.sizeof_event) h3
      rw [List.take_left' (bytes_at_length _ _ _)] at h4
      exact h4
    cases fuel with
    | zero => simp at hfuel
    | succ fuel =>
      simp only [read_events_loop, hlt, if_true]
      rw [hhdr, ← hsize, h1]
      rw [ih fuel (off + rec.length) (count + 1) (queue_enqueue (some rec) q)
        (fun x hx => hrec x (List.mem_cons_of_mem _ hx)) h2
        (by rw [hr, List.length_append]; omega) (by simpa using hfuel)]
      simp only [queue_enqueue_all, List.foldl_cons, List.length_cons]
      push_cast
      congr 2
      ring

theorem records_length_le_join (lay : inotify_layout) (hpos : 0 < lay.sizeof_event)
    (recs : List (List Nat)) (h : ∀ rec ∈ recs, is_record lay rec) :
    recs.length ≤ recs.flatten.length := by
  induction recs with
  | nil => simp
  | cons rec recs ih =>
    have h1 := (h rec (List.mem_cons_self _ _)).1
    have h2 := ih (fun x hx => h x (List.mem_cons_of_mem _ hx))
    simp only [List.length_cons, List.flatten_cons, List.length_append]
    omega

theorem queue_enqueue_all_size (recs : List (List Nat)) :
    ∀ q : queue_struct (List Nat), q.size + recs.length ≤ q.capacity →
      (queue_enqueue_all recs q).size = q.size + recs.length ∧
      (queue_enqueue_all recs q).capacity = q.capacity := by
  induction recs with
  | nil => intro q _; simp [queue_enqueue_all]
  | cons rec recs ih =>
    intro q hq
    simp only [List.length_cons] at hq
    push_cast at hq
    have hf : queue_full q = false := by
      simp [queue_full]; omega
    have hs : (queue_enqueue (some rec) q).size = q.size + 1 := by
      simp [queue_enqueue, hf]
    have hc : (queue_enqueue (some rec) q).capacity = q.capacity := by
      simp [queue_enqueue, hf]
    have := ih (queue_enqueue (some rec) q) (by rw [hs, hc]; omega)
    simp only [queue_enqueue_all, List.foldl_cons, List.length_cons] at this ⊢
    rw [this.1, this.2, hs, hc]
    push_cast
    exact ⟨by ring, rfl⟩

theorem queue_enqueue_all_holds {n : Int} (recs : List (List Nat)) :
    ∀ (q : queue_struct (List Nat)) (l : List (Option (List Nat))), queue_holds n q l →
      q.size + recs.length ≤ q.capacity →
      queue_holds n (queue_enqueue_all recs q) (l ++ recs.map some) := by
  induction recs with
  | nil => intro q l h _; simpa [queue_enqueue_all] using h
  | cons rec recs ih =>
    intro q l h hq
    simp only [List.length_cons] at hq
    push_cast at hq
    have hf : queue_full q = false := by
      simp [queue_full]; omega
    have hs : (queue_enqueue (some rec) q).size = q.size + 1 := by
      simp [queue_enqueue, hf]
    have hc : (queue_enqueue (some rec) q).capacity = q.capacity := by
      simp [queue_enqueue, hf]
    have := ih (queue_enqueue (some rec) q) _ (queue_holds_enqueue h hf (some rec))
      (by rw [hs, hc]; omega)
    simpa [queue_enqueue_all] using this

/-- C3: when `read` returns `r > 0` bytes that are the concatenation of `k` complete
inotify records and the queue has at least `k` free slots, `read_events` (given
fuel `r` or more) returns `k`, having made exactly `k` `queue_enqueue` calls whose
arguments are byte-for-byte the records, in buffer order; none meets a full queue
(`size` grows by `k`), and on a well-formed queue holding `l` the queue afterwards
holds `l` followed by the `k` records. -/
theorem read_events_complete_records (lay : inotify_layout) (hpos : 0 < lay.sizeof_event)
    (q : queue_struct (List Nat)) (r : Int) (buffer : Nat → Nat)
    (recs : List (List Nat)) (fuel : Nat)
    (hr : 0 < r) (hlen : r = recs.flatten.length)
    (hbuf : bytes_at buffer 0 recs.flatten.length = recs.flatten)
    (hrecs : ∀ rec ∈ recs, is_record lay rec)
    (hfree : q.size + recs.length ≤ q.capacity)
    (hfuel : r.toNat ≤ fuel) :
    read_events lay q r buffer fuel = some ((recs.length : Int), queue_enqueue_all recs q) ∧
    (queue_enqueue_all recs q).size = q.size + recs.length ∧
    (∀ (n : Int) (l : List (Option (List Nat))), queue_holds n q l →
      queue_contents (queue_enqueue_all recs q) = l ++ recs.map some) := by
  have hk := records_length_le_join lay hpos recs hrecs
  have hrn : r.toNat = recs.flatten.length := by omega
  refine ⟨?_, (queue_enqueue_all_size recs q hfree).1, ?_⟩
  · have hnot : ¬ r ≤ 0 := by omega
    simp only [read_events, hnot, if_false]
    rw [read_events_loop_records lay hpos buffer r.toNat recs fuel 0 0 q hrecs hbuf
      (by omega) (by omega)]
    simp
  · intro n l h
    exact queue_holds_contents (queue_enqueue_all_holds recs q l h hfree)

/-- Witness for C3: the two sample records (36 bytes) read into an empty queue of
capacity 128, as `galaxyd` creates it. -/
theorem read_events_complete_records_witness :
    (∀ rec ∈ sample_records, is_record linux_inotify_layout rec) ∧
    bytes_at sample_buffer 0 sample_records.flatten.length = sample_records.flatten ∧
    read_events linux_inotify_layout (queue_create 128 (fun _ => none)) 36 sample_buffer 36
      = some (2, queue_enqueue_all sample_records (queue_create 128 (fun _ => none))) ∧
    queue_contents (queue_enqueue_all sample_records (queue_create 128 (fun _ => none)))
      = [] ++ sample_records.map some :=
  ⟨by decide, by decide,
   (read_events_complete_records linux_inotify_layout (by decide)
      (queue_create 128 (fun _ => none)) 36 sample_buffer sample_records 36
      (by decide) (by decide) (by decide) (by decide) (by decide) (by decide)).1,
   (read_events_complete_records linux_inotify_layout (by decide)
      (queue_create 128 (fun _ => none)) 36 sample_buffer sample_records 36
      (by decide) (by decide) (by decide) (by decide) (by decide) (by decide)).2.2 128 []
      (queue_holds_create 128 (by decide) _)⟩

/-! ### server_thread.c: `client_request` -/

/-- C4: on a connection delivering command WATCH, IGNORE_WATCH or IGNORE_MASK and
mask `m` (and regex `r` for the first two), the worker makes exactly one call into
the session registry, with its own session name: `add_galaxy_watch (name, m, r)`,
`add_galaxy_ignore_watch (name, m, r)` or `set_galaxy_ignore_mask (name, m)`
respectively; it then closes the connection and serves the remaining connections. -/
theorem client_request_one_mutation (name : String) (m : Nat) (r : String)
    (extra : List frame) (cs : List (Option (List frame))) :
    client_request name
        (some (.uint32 GALAXY_WATCH :: .uint32 m :: .string r :: extra) :: cs) =
      { trace := [.recv_uint32 (some GALAXY_WATCH), .recv_uint32 (some m),
                  .recv_string (some r), .add_galaxy_watch name m (some r),
                  .close_connfd extra] ++ (client_request name cs).trace,
        returned := (client_request name cs).returned,
        unserved := (client_request name cs).unserved } ∧
    client_request name
        (some (.uint32 GALAXY_IGNORE_WATCH :: .uint32 m :: .string r :: extra) :: cs) =
      { trace := [.recv_uint32 (some GALAXY_IGNORE_WATCH), .recv_uint32 (some m),
                  .recv_string (some r), .add_galaxy_ignore_watch name m (some r),
                  .close_connfd extra] ++ (client_request name cs).trace,
        returned := (client_request name cs).returned,
        unserved := (client_request name cs).unserved } ∧
    client_request name
        (some (.uint32 GALAXY_IGNORE_MASK :: .uint32 m :: extra) :: cs) =
      { trace := [.recv_uint32 (some GALAXY_IGNORE_MASK), .recv_uint32 (some m),
                  .set_galaxy_ignore_mask name m,
                  .close_connfd extra] ++ (client_request name cs).trace,
        returned := (client_request name cs).returned,
        unserved := (client_request name cs).unserved } := by
  refine ⟨?_, ?_, ?_⟩ <;>
    simp [client_request, client_request_round, net_recv_uint32, net_recv_string,
      GALAXY_WATCH, GALAXY_IGNORE_WATCH, GALAXY_IGNORE_MASK, GALAXY_EXIT]

theorem client_request_round_no_exit (name : String) (c : Option (List frame))
    (h : is_exit_connection c = false) :
    (client_request_round name c).2 = false ∧
    (∀ n, server_event.remove_galaxy_watches n ∉ (client_request_round name c).1) ∧
    server_event.close_listenfd ∉ (client_request_round name c).1 := by
  match c with
  | none => simp [client_request_round]
  | some [] => simp [client_request_round, net_recv_uint32]
  | some (.string s :: rest) => simp [client_request_round, net_recv_uint32]
  | some (.uint32 v :: rest) =>
    have hv : v ≠ GALAXY_EXIT := by simpa [is_exit_connection] using h
    match rest with
    | [] => simp [client_request_round, net_recv_uint32, hv]
    | .string s :: rest2 => simp [client_request_round, net_recv_uint32, hv]
    | .uint32 w :: rest2 =>
      simp only [client_request_round, net_recv_uint32, hv, if_false]
      split_ifs <;> simp

theorem client_request_no_exit (name : String) (pre : List (Option (List frame)))
    (hpre : ∀ c ∈ pre, is_exit_connection c = false) :
    (client_request name pre).returned = false ∧
    (client_request name pre).unserved = [] ∧
    (∀ n, server_event.remove_galaxy_watches n ∉ (client_request name pre).trace) ∧
    server_event.close_listenfd ∉ (client_request name pre).trace := by
  induction pre with
  | nil => simp [client_request]
  | cons c cs ih =>
    obtain ⟨h1, h2, h3⟩ := client_request_round_no_exit name c (hpre c (List.mem_cons_self _ _))
    obtain ⟨i1, i2, i3, i4⟩ := ih (fun x hx => hpre x (List.mem_cons_of_mem _ hx))
    simp only [client_request, h1, Bool.false_eq_true, if_false]
    refine ⟨i1, i2, ?_, ?_⟩
    · intro n hn
      rcases List.mem_append.1 hn with h | h
      · exact h2 n h
      · exact i3 n h
    · intro hn
      rcases List.mem_append.1 hn with h | h
      · exact h3 h
      · exact i4 h

theorem client_request_append_exit (name : String) (rest : List frame)
    (post : List (Option (List frame))) (pre : List (Option (List frame)))
    (hpre : ∀ c ∈ pre, is_exit_connection c = false) :
    client_request name (pre ++ some (.uint32 GALAXY_EXIT :: rest) :: post) =
      { trace := (client_request name pre).trace ++
          [.recv_uint32 (some GALAXY_EXIT), .remove_galaxy_watches name,
           .close_connfd rest, .close_listenfd],
        returned := true, unserved := post } := by
  induction pre with
  | nil => simp [client_request, client_request_round, net_recv_uint32]
  | cons c cs ih =>
    obtain ⟨h1, -, -⟩ := client_request_round_no_exit name c (hpre c (List.mem_cons_self _ _))
    have := ih (fun x hx => hpre x (List.mem_cons_of_mem _ hx))
    rw [List.cons_append]
    simp only [client_request, h1, Bool.false_eq_true, if_false]
    rw [this]
    simp

/-- C5: the worker loop ends exactly at the first connection whose command is EXIT.
Over connections none of which carries EXIT the worker does not return, serves
them all, and never calls `remove_galaxy_watches`; when the next connection
carries EXIT the worker receives the command word only, calls
`remove_galaxy_watches` on its session name, closes the connection (mask and
payload, if any, unread), closes its listening socket and returns, leaving every
later connection unserved. -/
theorem client_request_ends_at_first_exit (name : String)
    (pre : List (Option (List frame)))
    (hpre : ∀ c ∈ pre, is_exit_connection c = false) :
    (client_request name pre).returned = false ∧
    (client_request name pre).unserved = [] ∧
    (∀ n, server_event.remove_galaxy_watches n ∉ (client_request name pre).trace) ∧
    (∀ (rest : List frame) (post : List (Option (List frame))),
      client_request name (pre ++ some (.uint32 GALAXY_EXIT :: rest) :: post) =
        { trace := (client_request name pre).trace ++
            [.recv_uint32 (some GALAXY_EXIT), .remove_galaxy_watches name,
             .close_connfd rest, .close_listenfd],
          returned := true, unserved := post }) := by
  obtain ⟨h1, h2, h3, -⟩ := client_request_no_exit name pre hpre
  exact ⟨h1, h2, h3, fun rest post => client_request_append_exit name rest post pre hpre⟩

/-- Witness for C5: a WATCH connection, a failed accept and an unknown command 9,
followed by an EXIT connection (with a trailing mask that stays unread) and one
more connection that is never served. -/
theorem client_request_ends_at_first_exit_witness :
    (∀ c ∈ [some [frame.uint32 1, .uint32 256, .string "^/tmp"], none,
            some [frame.uint32 9, .uint32 0]], is_exit_connection c = false) ∧
    (client_request "s"
      [some [frame.uint32 1, .uint32 256, .string "^/tmp"], none,
       some [frame.uint32 9, .uint32 0]]).returned = false ∧
    client_request "s"
      ([some [frame.uint32 1, .uint32 256, .string "^/tmp"], none,
        some [frame.uint32 9, .uint32 0]] ++
        some [frame.uint32 GALAXY_EXIT, .uint32 7] :: [some [frame.uint32 2, .uint32 1]]) =
      { trace := (client_request "s"
          [some [frame.uint32 1, .uint32 256, .string "^/tmp"], none,
           some [frame.uint32 9, .uint32 0]]).trace ++
            [.recv_uint32 (some GALAXY_EXIT), .remove_galaxy_watches "s",
             .close_connfd [.uint32 7], .close_listenfd],
        returned := true, unserved := [some [frame.uint32 2, .uint32 1]] } :=
  ⟨by decide,
   (client_request_ends_at_first_exit "s"
      [some [frame.uint32 1, .uint32 256, .string "^/tmp"], none,
       some [frame.uint32 9, .uint32 0]] (by decide)).1,
   (client_request_ends_at_first_exit "s"
      [some [frame.uint32 1, .uint32 256, .string "^/tmp"], none,
       some [frame.uint32 9, .uint32 0]] (by decide)).2.2.2 [.uint32 7]
      [some [frame.uint32 2, .uint32 1]]⟩

/-! ### libgalaxy.c and server_thread.c: frames of a control command -/

/-- C6: when the connection and the sends succeed, the frames written by
`galaxy_watch` and `galaxy_ignore_watch` (non-NULL regex), by `galaxy_ignore_mask`
and by `galaxy_close` are the frames of the protocol description for that command
(command; mask unless EXIT; regex exactly for WATCH and IGNORE_WATCH), and the
`client_request` round serving that connection receives exactly these frames in
order: no receive fails and no frame is left unread. -/
theorem control_frames_written_are_read (E connfd : Int) (name : String) (m : Nat)
    (r : String) (e1 e2 e3 : Int)
    (hconn : 0 ≤ connfd) (h1 : 0 ≤ e1) (h2 : 0 ≤ e2) (h3 : 0 ≤ e3) :
    ((galaxy_watch E connfd m (some r) e1 e2 e3).2 = spec_control_frames GALAXY_WATCH m r ∧
      served_exactly name (galaxy_watch E connfd m (some r) e1 e2 e3).2) ∧
    ((galaxy_ignore_watch E connfd m (some r) e1 e2 e3).2
        = spec_control_frames GALAXY_IGNORE_WATCH m r ∧
      served_exactly name (galaxy_ignore_watch E connfd m (some r) e1 e2 e3).2) ∧
    ((galaxy_ignore_mask E connfd m e1 e2 e3).2
        = spec_control_frames GALAXY_IGNORE_MASK m r ∧
      served_exactly name (galaxy_ignore_mask E connfd m e1 e2 e3).2) ∧
    ((galaxy_close E connfd e1).2 = spec_control_frames GALAXY_EXIT m r ∧
      served_exactly name (galaxy_close E connfd e1).2) := by
  have c0 : ¬ connfd < 0 := by omega
  have c1 : ¬ e1 < 0 := by omega
  have c2 : ¬ e2 < 0 := by omega
  have c3 : ¬ e3 < 0 := by omega
  refine ⟨⟨?_, ?_⟩, ⟨?_, ?_⟩, ⟨?_, ?_⟩, ⟨?_, ?_⟩⟩ <;>
    simp [galaxy_watch, galaxy_ignore_watch, galaxy_ignore_mask, galaxy_close,
      galaxy_send_server_command, spec_control_frames, served_exactly,
      client_request_round, net_recv_uint32, net_recv_string, frames_read, recv_failed,
      frames_unread, c0, c1, c2, c3,
      GALAXY_WATCH, GALAXY_IGNORE_WATCH, GALAXY_IGNORE_MASK, GALAXY_EXIT]

/-- Witness for C6: connection descriptor 5, all sends returning 0, mask 0x100. -/
theorem control_frames_written_are_read_witness :
    (galaxy_watch (-1) 5 256 (some "^/tmp/.*") 0 0 0).2
      = [.uint32 1, .uint32 256, .string "^/tmp/.*"] ∧
    served_exactly "s" (galaxy_watch (-1) 5 256 (some "^/tmp/.*") 0 0 0).2 ∧
    served_exactly "s" (galaxy_close (-1) 5 0).2 :=
  ⟨by decide,
   (control_frames_written_are_read (-1) 5 "s" 256 "^/tmp/.*" 0 0 0
      (by decide) (by decide) (by decide) (by decide)).1.2,
   (control_frames_written_are_read (-1) 5 "s" 256 "^/tmp/.*" 0 0 0
      (by decide) (by decide) (by decide) (by decide)).2.2.2.2⟩

/-! ### libgalaxy.c: `galaxy_connect` -/

theorem digit_char_toNat : ∀ d : Nat, d < 10 → (digit_char d).toNat - 48 = d := by
  decide

theorem digit_char_ne_minus : ∀ d : Nat, d < 10 → digit_char d ≠ '-' := by
  decide

/-- Reading the characters of `decimal_chars n` back as decimal digits gives `n`. -/
theorem decimal_chars_value (n : Nat) :
    Nat.ofDigits 10 (((decimal_chars n).map (fun c => c.toNat - 48)).reverse) = n := by
  unfold decimal_chars
  split_ifs with h
  · subst h; decide
  · have hmap : ((Nat.digits 10 n).reverse.map digit_char).map (fun c => c.toNat - 48)
        = (Nat.digits 10 n).reverse := by
      rw [List.map_map]
      conv_rhs => rw [← List.map_id (Nat.digits 10 n).reverse]
      apply List.map_congr_left
      intro d hd
      simp only [Function.comp, id]
      exact digit_char_toNat d (Nat.digits_lt_base (by decide) (List.mem_reverse.1 hd))
    rw [hmap, List.reverse_reverse, Nat.ofDigits_digits]

theorem decimal_chars_injective {a b : Nat} (h : decimal_chars a = decimal_chars b) : a = b := by
  have := decimal_chars_value a
  rw [h, decimal_chars_value b] at this
  exact this.symm

theorem minus_not_mem_decimal_chars (n : Nat) : '-' ∉ decimal_chars n := by
  unfold decimal_chars
  split_ifs with h
  · decide
  · intro hm
    obtain ⟨d, hd, he⟩ := List.mem_map.1 hm
    exact digit_char_ne_minus d (Nat.digits_lt_base (by decide) (List.mem_reverse.1 hd)) he

theorem fmt_d_injective {a b : Nat} (ha : a < 2 ^ 32) (hb : b < 2 ^ 32)
    (h : fmt_d a = fmt_d b) : a = b := by
  unfold fmt_d at h
  split_ifs at h with h1 h2 h2
  · exact decimal_chars_injective h
  · exact absurd (h ▸ List.mem_cons_self _ _) (minus_not_mem_decimal_chars a)
  · exact absurd (h.symm ▸ List.mem_cons_self _ _) (minus_not_mem_decimal_chars b)
  · have := decimal_chars_injective (List.cons.inj h).2
    omega

theorem sprintf_s_05d_d_injective (s : String) (pid : Nat) {a b : Nat}
    (ha : a < 2 ^ 32) (hb : b < 2 ^ 32)
    (h : sprintf_s_05d_d s pid a = sprintf_s_05d_d s pid b) : a = b := by
  unfold sprintf_s_05d_d at h
  have h1 : s.data ++ fmt_05d pid ++ '.' :: fmt_d a = s.data ++ fmt_05d pid ++ '.' :: fmt_d b :=
    congrArg String.data h
  have h2 := List.append_cancel_left h1
  exact fmt_d_injective ha hb (List.cons.inj h2).2

theorem galaxy_connect_cases (CLI_PATH : String) (E : Int) (pid : Nat) (io : connect_io)
    (c : Nat) (galaxy : galaxy_t) (hE : E < 0) :
    ((galaxy_connect CLI_PATH E pid io c galaxy).ret = 0 ∧
      (galaxy_connect CLI_PATH E pid io c galaxy).uniqueid = (c + 2) % 2 ^ 32 ∧
      (galaxy_connect CLI_PATH E pid io c galaxy).cliname = sprintf_s_05d_d CLI_PATH pid c ∧
      (galaxy_connect CLI_PATH E pid io c galaxy).galaxy.sname
        = sprintf_s_05d_d CLI_PATH pid ((c + 1) % 2 ^ 32) ∧
      (galaxy_connect CLI_PATH E pid io c galaxy).sent
        = [.string (sprintf_s_05d_d CLI_PATH pid c), .uint32 pid,
           .uint32 ((c + 1) % 2 ^ 32)]) ∨
    ((galaxy_connect CLI_PATH E pid io c galaxy).ret < 0 ∧
      (galaxy_connect CLI_PATH E pid io c galaxy).uniqueid = (c + 1) % 2 ^ 32 ∧
      (galaxy_connect CLI_PATH E pid io c galaxy).galaxy.sname = galaxy.sname) := by
  unfold galaxy_connect
  simp only
  split_ifs
  all_goals first
    | (right; refine ⟨?_, rfl, rfl⟩; simp only; omega)
    | (left; refine ⟨rfl, ?_, rfl, rfl, rfl⟩; simp only; omega)

/-- C7: a `galaxy_connect` call that returns 0, entered with counter `c`, binds the
delivery socket at `<CLI_PATH><pid %05d>.<c>`, sends pid and the id `c+1`, stores
`<CLI_PATH><pid %05d>.<c+1>` in `galaxy->sname` and leaves the counter at `c+2`
(`uint32_t` arithmetic; literally `c+1`, `c+2` when `c + 2 < 2^32`). So the id sent
is the id in the stored control path, and `sname` is the name `server_thread`
builds from the pid and id it receives. -/
theorem galaxy_connect_success_ids (CLI_PATH : String) (E : Int) (pid : Nat)
    (io : connect_io) (c : Nat) (galaxy : galaxy_t) (hE : E < 0)
    (hret : (galaxy_connect CLI_PATH E pid io c galaxy).ret = 0) :
    (galaxy_connect CLI_PATH E pid io c galaxy).cliname = sprintf_s_05d_d CLI_PATH pid c ∧
    (galaxy_connect CLI_PATH E pid io c galaxy).sent
      = [.string (sprintf_s_05d_d CLI_PATH pid c), .uint32 pid, .uint32 ((c + 1) % 2 ^ 32)] ∧
    (galaxy_connect CLI_PATH E pid io c galaxy).galaxy.sname
      = sprintf_s_05d_d CLI_PATH pid ((c + 1) % 2 ^ 32) ∧
    (galaxy_connect CLI_PATH E pid io c galaxy).uniqueid = (c + 2) % 2 ^ 32 ∧
    (galaxy_connect CLI_PATH E pid io c galaxy).galaxy.sname
      = server_thread_name CLI_PATH pid ((c + 1) % 2 ^ 32) ∧
    (c + 2 < 2 ^ 32 →
      (galaxy_connect CLI_PATH E pid io c galaxy).sent
        = [.string (sprintf_s_05d_d CLI_PATH pid c), .uint32 pid, .uint32 (c + 1)] ∧
      (galaxy_connect CLI_PATH E pid io c galaxy).galaxy.sname
        = sprintf_s_05d_d CLI_PATH pid (c + 1) ∧
      (galaxy_connect CLI_PATH E pid io c galaxy).uniqueid = c + 2) := by
  rcases galaxy_connect_cases CLI_PATH E pid io c galaxy hE with h | h
  · obtain ⟨-, hu, hc, hs, hsent⟩ := h
    refine ⟨hc, hsent, hs, hu, hs, ?_⟩
    intro hlt
    have e1 : (c + 1) % 2 ^ 32 = c + 1 := Nat.mod_eq_of_lt (by omega)
    have e2 : (c + 2) % 2 ^ 32 = c + 2 := Nat.mod_eq_of_lt hlt
    rw [hsent, hs, hu, e1, e2]
    exact ⟨rfl, rfl, rfl⟩
  · omega

/-- Witness for C7: pid 42, counter 0, every call succeeding, ack `ACK_SUCCESS`. -/
theorem galaxy_connect_success_ids_witness :
    (galaxy_connect "/tmp/galaxy." (-1) 42 ⟨3, 0, 0, 0, 0, ACK_SUCCESS⟩ 0 ⟨-1, ""⟩).ret = 0 ∧
    (galaxy_connect "/tmp/galaxy." (-1) 42 ⟨3, 0, 0, 0, 0, ACK_SUCCESS⟩ 0 ⟨-1, ""⟩).sent
      = [.string (sprintf_s_05d_d "/tmp/galaxy." 42 0), .uint32 42, .uint32 (0 + 1)] ∧
    (galaxy_connect "/tmp/galaxy." (-1) 42 ⟨3, 0, 0, 0, 0, ACK_SUCCESS⟩ 0 ⟨-1, ""⟩).galaxy.sname
      = sprintf_s_05d_d "/tmp/galaxy." 42 (0 + 1) ∧
    (galaxy_connect "/tmp/galaxy." (-1) 42 ⟨3, 0, 0, 0, 0, ACK_SUCCESS⟩ 0 ⟨-1, ""⟩).uniqueid
      = 0 + 2 :=
  ⟨by decide,
   (galaxy_connect_success_ids "/tmp/galaxy." (-1) 42 ⟨3, 0, 0, 0, 0, ACK_SUCCESS⟩ 0 ⟨-1, ""⟩
      (by decide) (by decide)).2.2.2.2.2 (by decide)⟩

theorem library_sessions_mem (CLI_PATH : String) (E : Int) (pid : Nat) (hE : E < 0)
    (calls : List lib_call) :
    ∀ (c : Nat) (galaxy : galaxy_t), c + 2 * calls.length < 2 ^ 32 →
      ∀ s ∈ library_sessions CLI_PATH E pid calls c galaxy,
        ∃ a, c ≤ a ∧ a + 1 < 2 ^ 32 ∧
          s = (sprintf_s_05d_d CLI_PATH pid a, sprintf_s_05d_d CLI_PATH pid (a + 1)) := by
  induction calls with
  | nil => intro c galaxy _ s hs; simp [library_sessions] at hs
  | cons call calls ih =>
    intro c galaxy hw s hs
    simp only [List.length_cons] at hw
    cases call with
    | close =>
      simp only [library_sessions] at hs
      exact ih c galaxy (by omega) s hs
    | connect io =>
      have e1 : (c + 1) % 2 ^ 32 = c + 1 := Nat.mod_eq_of_lt (by omega)
      have e2 : (c + 2) % 2 ^ 32 = c + 2 := Nat.mod_eq_of_lt (by omega)
      simp only [library_sessions] at hs
      rcases galaxy_connect_cases CLI_PATH E pid io c galaxy hE with h | h
      · obtain ⟨hr, hu, hc, hsn, -⟩ := h
        rw [if_pos hr, hu, hc, hsn, e1, e2] at hs
        rcases List.mem_cons.1 hs with h0 | h0
        · exact ⟨c, le_refl _, by omega, h0⟩
        · obtain ⟨a, ha, hb, he⟩ := ih (c + 2) _ (by omega) s h0
          exact ⟨a, by omega, hb, he⟩
      · obtain ⟨hr, hu, -⟩ := h
        rw [if_neg (by omega), hu, e1] at hs
        obtain ⟨a, ha, hb, he⟩ := ih (c + 1) _ (by omega) s hs
        exact ⟨a, by omega, hb, he⟩

theorem library_sessions_pairwise (CLI_PATH : String) (E : Int) (pid : Nat) (hE : E < 0)
    (calls : List lib_call) :
    ∀ (c : Nat) (galaxy : galaxy_t), c + 2 * calls.length < 2 ^ 32 →
      (library_sessions CLI_PATH E pid calls c galaxy).Pairwise sessions_distinct := by
  induction calls with
  | nil => intro c galaxy _; simp [library_sessions]
  | cons call calls ih =>
    intro c galaxy hw
    simp only [List.length_cons] at hw
    cases call with
    | close =>
      simp only [library_sessions]
      exact ih c galaxy (by omega)
    | connect io =>
      have e1 : (c + 1) % 2 ^ 32 = c + 1 := Nat.mod_eq_of_lt (by omega)
      have e2 : (c + 2) % 2 ^ 32 = c + 2 := Nat.mod_eq_of_lt (by omega)
      simp only [library_sessions]
      rcases galaxy_connect_cases CLI_PATH E pid io c galaxy hE with h | h
      · obtain ⟨hr, hu, hc, hsn, -⟩ := h
        rw [if_pos hr, hu, hc, hsn, e1, e2]
        refine List.Pairwise.cons ?_ (ih (c + 2) _ (by omega))
        intro t ht
        obtain ⟨a, ha, hb, he⟩ :=
          library_sessions_mem CLI_PATH E pid hE calls (c + 2) _ (by omega) t ht
        subst he
        refine ⟨?_, ?_, ?_, ?_⟩
        · intro hEq
          have := sprintf_s_05d_d_injective CLI_PATH pid (by omega) (by omega) hEq
          omega
        · intro hEq
          have := sprintf_s_05d_d_injective CLI_PATH pid (by omega) (by omega) hEq
          omega
        · intro hEq
          have := sprintf_s_05d_d_injective CLI_PATH pid (by omega) (by omega) hEq
          omega
        · intro hEq
          have := sprintf_s_05d_d_injective CLI_PATH pid (by omega) (by omega) hEq
          omega
      · obtain ⟨hr, hu, -⟩ := h
        rw [if_neg (by omega), hu, e1]
        exact ih (c + 1) _ (by omega)

/-- C8: in one process (one pid), along any sequence of `galaxy_connect` calls
(successful or failed) and `galaxy_close` calls that does not wrap the 32-bit
counter, any two `galaxy_connect` calls that return 0 yield distinct sessions:
their control names `sname` differ, their delivery-socket names differ, and no
delivery name of one equals the control name of the other. -/
theorem galaxy_connect_sessions_distinct (CLI_PATH : String) (E : Int) (pid : Nat)
    (calls : List lib_call) (c : Nat) (galaxy : galaxy_t) (hE : E < 0)
    (hwrap : c + 2 * calls.length < 2 ^ 32) :
    (library_sessions CLI_PATH E pid calls c galaxy).Pairwise sessions_distinct :=
  library_sessions_pairwise CLI_PATH E pid hE calls c galaxy hwrap

/-- Witness for C8: connect, close, a connect refused with `ACK_FAIL`, connect. -/
theorem galaxy_connect_sessions_distinct_witness :
    (library_sessions "/tmp/galaxy." (-1) 42
      [.connect ⟨3, 0, 0, 0, 0, ACK_SUCCESS⟩, .close, .connect ⟨3, 0, 0, 0, 0, ACK_FAIL⟩,
       .connect ⟨4, 0, 0, 0, 0, ACK_SUCCESS⟩] 0 ⟨-1, ""⟩).length = 2 ∧
    (library_sessions "/tmp/galaxy." (-1) 42
      [.connect ⟨3, 0, 0, 0, 0, ACK_SUCCESS⟩, .close, .connect ⟨3, 0, 0, 0, 0, ACK_FAIL⟩,
       .connect ⟨4, 0, 0, 0, 0, ACK_SUCCESS⟩] 0 ⟨-1, ""⟩).Pairwise sessions_distinct :=
  ⟨by decide,
   galaxy_connect_sessions_distinct "/tmp/galaxy." (-1) 42
      [.connect ⟨3, 0, 0, 0, 0, ACK_SUCCESS⟩, .close, .connect ⟨3, 0, 0, 0, 0, ACK_FAIL⟩,
       .connect ⟨4, 0, 0, 0, 0, ACK_SUCCESS⟩] 0 ⟨-1, ""⟩ (by decide) (by decide)⟩

/-- C9 (refuted as stated): with every call succeeding and the daemon answering
`ACK_FAIL`, `galaxy_connect` returns -3 and `galaxy->sname` still holds what it held
before the call ("old"), which is not the session name of this handshake. -/
theorem ack_fail_leaves_old_sname :
    (galaxy_connect "/tmp/galaxy." (-1) 42 ⟨3, 0, 0, 0, 0, ACK_FAIL⟩ 0 ⟨-1, "old"⟩).ret = -3 ∧
    (galaxy_connect "/tmp/galaxy." (-1) 42 ⟨3, 0, 0, 0, 0, ACK_FAIL⟩ 0 ⟨-1, "old"⟩).galaxy.sname
      = "old" ∧
    (galaxy_connect "/tmp/galaxy." (-1) 42 ⟨3, 0, 0, 0, 0, ACK_FAIL⟩ 0 ⟨-1, "old"⟩).galaxy.sname
      ≠ server_thread_name "/tmp/galaxy." 42 1 := by
  refine ⟨by decide, by decide, ?_⟩
  simp [galaxy_connect, ACK_FAIL, server_thread_name, sprintf_s_05d_d, fmt_05d, fmt_d,
    decimal_chars, digit_char]

/-- C9 (amended): when the handshake gets as far as the acknowledgement and the
daemon answers `ACK_FAIL`, `galaxy_connect` returns -3 and stores no session name:
`galaxy->sname` is what it was before the call. The counter has been advanced once
and the pid and id have been sent. -/
theorem galaxy_connect_refused_keeps_sname (CLI_PATH : String) (E : Int) (pid : Nat)
    (io : connect_io) (c : Nat) (galaxy : galaxy_t)
    (hl : 0 ≤ io.listen_fd) (h1 : 0 ≤ io.err_name) (h2 : 0 ≤ io.err_pid)
    (h3 : 0 ≤ io.err_id) (h4 : 0 ≤ io.err_ack) (hack : io.ack = ACK_FAIL) :
    (galaxy_connect CLI_PATH E pid io c galaxy).ret = -3 ∧
    (galaxy_connect CLI_PATH E pid io c galaxy).galaxy.sname = galaxy.sname ∧
    (galaxy_connect CLI_PATH E pid io c galaxy).uniqueid = (c + 1) % 2 ^ 32 ∧
    (galaxy_connect CLI_PATH E pid io c galaxy).sent
      = [.string (sprintf_s_05d_d CLI_PATH pid c), .uint32 pid,
         .uint32 ((c + 1) % 2 ^ 32)] := by
  have c0 : ¬ io.listen_fd < 0 := by omega
  have c1 : ¬ io.err_name < 0 := by omega
  have c2 : ¬ io.err_pid < 0 := by omega
  have c3 : ¬ io.err_id < 0 := by omega
  have c4 : ¬ io.err_ack < 0 := by omega
  simp [galaxy_connect, c0, c1, c2, c3, c4, hack]

/-- Witness for C9 (amended): pid 42, counter 7, previous `sname` "old". -/
theorem galaxy_connect_refused_keeps_sname_witness :
    (galaxy_connect "/tmp/galaxy." (-1) 42 ⟨3, 0, 0, 0, 0, ACK_FAIL⟩ 7 ⟨-1, "old"⟩).ret = -3 ∧
    (galaxy_connect "/tmp/galaxy." (-1) 42 ⟨3, 0, 0, 0, 0, ACK_FAIL⟩ 7 ⟨-1, "old"⟩).galaxy.sname
      = "old" :=
  ⟨(galaxy_connect_refused_keeps_sname "/tmp/galaxy." (-1) 42 ⟨3, 0, 0, 0, 0, ACK_FAIL⟩ 7 ⟨-1, "old"⟩
      (by decide) (by decide) (by decide) (by decide) (by decide) rfl).1,
   (galaxy_connect_refused_keeps_sname "/tmp/galaxy." (-1) 42 ⟨3, 0, 0, 0, 0, ACK_FAIL⟩ 7 ⟨-1, "old"⟩
      (by decide) (by decide) (by decide) (by decide) (by decide) rfl).2.1⟩

/-- C10 (the code at the failing input): the acknowledgement word is 3, neither
`ACK_SUCCESS` nor `ACK_FAIL`; `galaxy_connect` returns 0, stores a session name and
advances the counter twice, exactly as for `ACK_SUCCESS`. -/
theorem galaxy_connect_unknown_ack_returns_zero :
    (3 : Nat) ≠ ACK_SUCCESS ∧
    (galaxy_connect "/tmp/galaxy." (-1) 42 ⟨3, 0, 0, 0, 0, 3⟩ 0 ⟨-1, ""⟩).ret = 0 ∧
    (galaxy_connect "/tmp/galaxy." (-1) 42 ⟨3, 0, 0, 0, 0, 3⟩ 0 ⟨-1, ""⟩).uniqueid = 2 ∧
    (galaxy_connect "/tmp/galaxy." (-1) 42 ⟨3, 0, 0, 0, 0, 3⟩ 0 ⟨-1, ""⟩).galaxy.sname
      = server_thread_name "/tmp/galaxy." 42 1 := by
  refine ⟨by decide, by decide, by decide, ?_⟩
  simp [galaxy_connect, ACK_FAIL, server_thread_name]

/-! ### server_thread.c: `server_thread` -/

/-- C11 (refuted as stated): the handshake delivers pid 42 and id 2^31; the name
handed to `serv_listen` ends in "-2147483648" (the `uint32_t` is printed with `%d`),
which is not the decimal id. -/
theorem server_thread_name_large_id :
    listened_name (server_thread_round "/tmp/galaxy."
        [.string "/tmp/galaxy.00042.0", .uint32 42, .uint32 2147483648] ⟨true, 5, 0, 0, 0⟩)
      = some "/tmp/galaxy.00042.-2147483648" ∧
    spec_control_path "/tmp/galaxy." 42 2147483648 = "/tmp/galaxy.00042.2147483648" ∧
    listened_name (server_thread_round "/tmp/galaxy."
        [.string "/tmp/galaxy.00042.0", .uint32 42, .uint32 2147483648] ⟨true, 5, 0, 0, 0⟩)
      ≠ some (spec_control_path "/tmp/galaxy." 42 2147483648) := by
  refine ⟨?_, ?_, ?_⟩ <;>
    simp [listened_name, server_thread_round, net_recv_string, net_recv_uint32,
      server_thread_name, sprintf_s_05d_d, spec_control_path, fmt_05d, fmt_d,
      decimal_chars, digit_char]

/-- C11 (amended): for every pid and id below 2^31 (the values an `int` holds)
received in a handshake, the name the daemon passes to `serv_listen` is `CLI_PATH`
followed by the decimal pid zero-padded to at least five digits, a dot, and the
decimal id. -/
theorem server_thread_listens_on_control_path (CLI_PATH cliservname : String)
    (pid id : Nat) (extra : List frame) (io : handshake_io)
    (hm : io.malloc_ok = true) (hpid : pid < 2 ^ 31) (hid : id < 2 ^ 31) :
    listened_name (server_thread_round CLI_PATH
        (.string cliservname :: .uint32 pid :: .uint32 id :: extra) io)
      = some (spec_control_path CLI_PATH pid id) := by
  have hname : server_thread_name CLI_PATH pid id = spec_control_path CLI_PATH pid id := by
    have hp : pid < 2147483648 := hpid
    have hi : id < 2147483648 := hid
    simp [server_thread_name, sprintf_s_05d_d, spec_control_path, fmt_05d, fmt_d, hp, hi]
  simp only [server_thread_round, hm, net_recv_string, net_recv_uint32, hname]
  simp only [Bool.not_true, Bool.false_eq_true, if_false]
  split_ifs <;> simp [listened_name]

/-- Witness for C11 (amended): pid 42, id 1. -/
theorem server_thread_listens_on_control_path_witness :
    listened_name (server_thread_round "/tmp/galaxy."
        (.string "/tmp/galaxy.00042.0" :: .uint32 42 :: .uint32 1 :: []) ⟨true, 5, 0, 0, 0⟩)
      = some (spec_control_path "/tmp/galaxy." 42 1) :=
  server_thread_listens_on_control_path "/tmp/galaxy." "/tmp/galaxy.00042.0" 42 1 []
    ⟨true, 5, 0, 0, 0⟩ rfl (by decide) (by decide)

theorem server_thread_round_general (CLI_PATH : String) (conn : List frame)
    (io : handshake_io) :
    (acks_of (server_thread_round CLI_PATH conn io)).length ≤ 1 ∧
    (handshake_recv_failed (server_thread_round CLI_PATH conn io) = true →
      acks_of (server_thread_round CLI_PATH conn io) = [] ∧
      worker_spawned (server_thread_round CLI_PATH conn io) = false) := by
  unfold server_thread_round
  repeat' split
  all_goals simp [acks_of, worker_spawned, handshake_recv_failed]

/-- C12: in a handshake whose delivery path, pid and id are received, a failed
`serv_listen` makes the server send `ACK_FAIL`, create no worker and close the
connection; otherwise the only acknowledgement sent is `ACK_SUCCESS`, and a worker
exists only if that send succeeded and came before the thread was created. No
round sends more than one acknowledgement, and a round in which a receive fails
sends none and creates no worker. -/
theorem server_thread_ack_protocol (CLI_PATH : String) (conn : List frame)
    (io : handshake_io) :
    (acks_of (server_thread_round CLI_PATH conn io)).length ≤ 1 ∧
    (handshake_recv_failed (server_thread_round CLI_PATH conn io) = true →
      acks_of (server_thread_round CLI_PATH conn io) = [] ∧
      worker_spawned (server_thread_round CLI_PATH conn io) = false) ∧
    (∀ (cliservname : String) (pid id : Nat) (extra : List frame),
      conn = .string cliservname :: .uint32 pid :: .uint32 id :: extra →
      io.malloc_ok = true →
      (io.listenfd < 0 →
        acks_of (server_thread_round CLI_PATH conn io) = [ACK_FAIL] ∧
        worker_spawned (server_thread_round CLI_PATH conn io) = false ∧
        (server_thread_round CLI_PATH conn io).getLast? = some .close_connfd) ∧
      (0 ≤ io.listenfd →
        acks_of (server_thread_round CLI_PATH conn io) = [ACK_SUCCESS] ∧
        (worker_spawned (server_thread_round CLI_PATH conn io) = true →
          0 ≤ io.err_ack ∧
          .send_ack ACK_SUCCESS io.err_ack
            ∈ before_spawn (server_thread_round CLI_PATH conn io)))) := by
  refine ⟨(server_thread_round_general CLI_PATH conn io).1,
    (server_thread_round_general CLI_PATH conn io).2, ?_⟩
  intro cliservname pid id extra hconn hm
  subst hconn
  simp only [server_thread_round, hm, net_recv_string, net_recv_uint32,
    Bool.not_true, Bool.false_eq_true, if_false]
  constructor
  · intro hl
    simp [hl, acks_of, worker_spawned]
  · intro hl
    have hnl : ¬ io.listenfd < 0 := by omega
    simp only [hnl, if_false]
    split_ifs with he
    · simp [acks_of, worker_spawned]
    · simp [acks_of, worker_spawned, before_spawn]
      intro _
      omega

/-- Witness for C12: a complete handshake with `serv_listen` failing, and one with
every call succeeding. -/
theorem server_thread_ack_protocol_witness :
    acks_of (server_thread_round "/tmp/galaxy."
      [.string "/tmp/galaxy.00042.0", .uint32 42, .uint32 1] ⟨true, -1, 0, 0, 0⟩) = [ACK_FAIL] ∧
    acks_of (server_thread_round "/tmp/galaxy."
      [.string "/tmp/galaxy.00042.0", .uint32 42, .uint32 1] ⟨true, 5, 0, 0, 0⟩)
        = [ACK_SUCCESS] :=
  ⟨(((server_thread_ack_protocol "/tmp/galaxy."
      [.string "/tmp/galaxy.00042.0", .uint32 42, .uint32 1] ⟨true, -1, 0, 0, 0⟩).2.2
        "/tmp/galaxy.00042.0" 42 1 [] rfl rfl).1 (by decide)).1,
   (((server_thread_ack_protocol "/tmp/galaxy."
      [.string "/tmp/galaxy.00042.0", .uint32 42, .uint32 1] ⟨true, 5, 0, 0, 0⟩).2.2
        "/tmp/galaxy.00042.0" 42 1 [] rfl rfl).2 (by decide)).1⟩

/-! ### inotify_utils.c: the watch registry -/

theorem g_hash_table_lookup_insert (t : wd_table) (k : Int) (v : String) (k2 : Int) :
    g_hash_table_lookup (g_hash_table_insert t k v) k2
      = if k2 = k then some v else g_hash_table_lookup t k2 := by
  unfold g_hash_table_lookup g_hash_table_insert
  by_cases h : k2 = k
  · subst h; simp
  · have hne : (k == k2) = false := by simpa using fun e => h e.symm
    simp only [List.find?_cons, hne, if_neg h]
    congr 1
    induction t with
    | nil => rfl
    | cons e t ih =>
      by_cases he : e.1 = k
      · have h1 : (e.1 != k) = false := by simp [he]
        have h2 : (e.1 == k2) = false := by simpa [he] using fun e => h e.symm
        simp only [List.filter_cons, h1, List.find?_cons, h2]
        exact ih
      · have h1 : (e.1 != k) = true := by simp [he]
        simp only [List.filter_cons, h1, if_true, List.find?_cons]
        split
        · rfl
        · exact ih

/-- C13: if the kernel call `inotify_add_watch` made by `galaxy_add_watch` fails,
the function returns -1 and the registry is exactly as before; and whenever the
registry is written, the write is the last call made, after an
`inotify_add_watch` call that returned a non-negative descriptor. -/
theorem galaxy_add_watch_kernel_failure (dirname : String) (mask : Nat) (malloc_ok : Bool)
    (kernel_wd : Int) (registry : wd_table) :
    (kernel_wd < 0 →
      (galaxy_add_watch dirname mask malloc_ok kernel_wd registry).ret = -1 ∧
      (galaxy_add_watch dirname mask malloc_ok kernel_wd registry).registry = registry ∧
      ∀ wd d, watch_call.g_hash_table_insert wd d
        ∉ (galaxy_add_watch dirname mask malloc_ok kernel_wd registry).calls) ∧
    ((galaxy_add_watch dirname mask malloc_ok kernel_wd registry).registry ≠ registry →
      0 ≤ kernel_wd ∧
      (galaxy_add_watch dirname mask malloc_ok kernel_wd registry).calls
        = [.inotify_add_watch dirname mask kernel_wd,
           .g_hash_table_insert kernel_wd dirname]) := by
  unfold galaxy_add_watch
  constructor
  · intro h
    split_ifs <;> simp
  · split_ifs with h1 h2
    · simp
    · simp
    · intro _
      exact ⟨by omega, rfl⟩

/-- Witness for C13: the kernel call fails with -1 on a registry with one entry;
and a successful call on the same registry. -/
theorem galaxy_add_watch_kernel_failure_witness :
    (galaxy_add_watch "/tmp/t" 4095 true (-1) [(1, "/tmp")]).ret = -1 ∧
    (galaxy_add_watch "/tmp/t" 4095 true (-1) [(1, "/tmp")]).registry = [(1, "/tmp")] ∧
    (0 : Int) ≤ 2 :=
  ⟨((galaxy_add_watch_kernel_failure "/tmp/t" 4095 true (-1) [(1, "/tmp")]).1 (by decide)).1,
   ((galaxy_add_watch_kernel_failure "/tmp/t" 4095 true (-1) [(1, "/tmp")]).1 (by decide)).2.1,
   ((galaxy_add_watch_kernel_failure "/tmp/t" 4095 true 2 [(1, "/tmp")]).2 (by decide)).1⟩

/-- C14 (refuted as stated): `galaxy_add_watch` is given the relative name "t" and
succeeds with descriptor 3; the lookup of 3 yields "t", which is not an absolute
path. -/
theorem galaxy_add_watch_relative_name :
    (galaxy_add_watch "t" 4095 true 3 []).ret = 3 ∧
    g_hash_table_lookup (galaxy_add_watch "t" 4095 true 3 []).registry 3 = some "t" ∧
    is_absolute_path "t" = false := by
  decide

/-- C14 (amended): when `galaxy_add_watch (d, mask)` succeeds and returns `w`, a
subsequent lookup of `w` in the registry yields the name `d` as it was passed, so
an absolute path exactly when the caller passed one. -/
theorem galaxy_add_watch_lookup (dirname : String) (mask : Nat) (malloc_ok : Bool)
    (kernel_wd : Int) (registry : wd_table)
    (hok : 0 ≤ (galaxy_add_watch dirname mask malloc_ok kernel_wd registry).ret) :
    g_hash_table_lookup (galaxy_add_watch dirname mask malloc_ok kernel_wd registry).registry
        (galaxy_add_watch dirname mask malloc_ok kernel_wd registry).ret = some dirname ∧
    ((g_hash_table_lookup (galaxy_add_watch dirname mask malloc_ok kernel_wd registry).registry
        (galaxy_add_watch dirname mask malloc_ok kernel_wd registry).ret).map is_absolute_path
      = some (is_absolute_path dirname)) := by
  unfold galaxy_add_watch at hok ⊢
  split_ifs at hok ⊢ with h1 h2
  · simp at hok
  · simp at hok
  · simp [g_hash_table_lookup_insert]

/-- Witness for C14 (amended): an absolute name, descriptor 3. -/
theorem galaxy_add_watch_lookup_witness :
    g_hash_table_lookup (galaxy_add_watch "/tmp/t" 4095 true 3 [(1, "/tmp")]).registry
      (galaxy_add_watch "/tmp/t" 4095 true 3 [(1, "/tmp")]).ret = some "/tmp/t" :=
  (galaxy_add_watch_lookup "/tmp/t" 4095 true 3 [(1, "/tmp")] (by decide)).1

/-- C15 (refuted as stated): the registry already maps descriptor 1 to "/tmp/t";
`galaxy_add_watch` for "/tmp/t" calls `inotify_add_watch` again and writes the
registry again, and when the kernel answers with another descriptor (2) that one
is returned and the registry then holds the path twice. -/
theorem galaxy_add_watch_registers_again :
    (galaxy_add_watch "/tmp/t" 4095 true 1 [(1, "/tmp/t")]).calls
      = [.inotify_add_watch "/tmp/t" 4095 1, .g_hash_table_insert 1 "/tmp/t"] ∧
    (galaxy_add_watch "/tmp/t" 4095 true 2 [(1, "/tmp/t")]).ret = 2 ∧
    (galaxy_add_watch "/tmp/t" 4095 true 2 [(1, "/tmp/t")]).registry
      = [(2, "/tmp/t"), (1, "/tmp/t")] := by
  decide

/-- C15 (amended): `galaxy_add_watch` never consults the registry. Whatever the
registry holds, it calls `inotify_add_watch` (once `malloc` has succeeded); on
success it returns the descriptor the kernel returned and writes descriptor and
path into the registry: afterwards the registry maps that descriptor to the path
and every other descriptor as before. Hence the registry's mapping is unchanged
exactly when it already mapped the returned descriptor to that path. -/
theorem galaxy_add_watch_ignores_registry (dirname : String) (mask : Nat) (kernel_wd : Int)
    (registry : wd_table) :
    (galaxy_add_watch dirname mask true kernel_wd registry).calls.head?
      = some (.inotify_add_watch dirname mask kernel_wd) ∧
    (galaxy_add_watch dirname mask true kernel_wd registry).ret
      = (galaxy_add_watch dirname mask true kernel_wd []).ret ∧
    (0 ≤ kernel_wd →
      (galaxy_add_watch dirname mask true kernel_wd registry).ret = kernel_wd ∧
      (galaxy_add_watch dirname mask true kernel_wd registry).calls
        = [.inotify_add_watch dirname mask kernel_wd,
           .g_hash_table_insert kernel_wd dirname] ∧
      g_hash_table_lookup (galaxy_add_watch dirname mask true kernel_wd registry).registry
          kernel_wd = some dirname ∧
      (∀ k, k ≠ kernel_wd →
        g_hash_table_lookup (galaxy_add_watch dirname mask true kernel_wd registry).registry k
          = g_hash_table_lookup registry k) ∧
      ((∀ k, g_hash_table_lookup
            (galaxy_add_watch dirname mask true kernel_wd registry).registry k
          = g_hash_table_lookup registry k) ↔
        g_hash_table_lookup registry kernel_wd = some dirname)) := by
  unfold galaxy_add_watch
  simp only [Bool.not_true, Bool.false_eq_true, if_false]
  refine ⟨?_, ?_, ?_⟩
  · split_ifs <;> simp
  · split_ifs <;> simp
  · intro h
    have hn : ¬ kernel_wd < 0 := by omega
    simp only [if_neg hn]
    have hself : g_hash_table_lookup (g_hash_table_insert registry kernel_wd dirname) kernel_wd
        = some dirname := by
      rw [g_hash_table_lookup_insert, if_pos rfl]
    have hother : ∀ k, k ≠ kernel_wd →
        g_hash_table_lookup (g_hash_table_insert registry kernel_wd dirname) k
          = g_hash_table_lookup registry k := by
      intro k hk
      rw [g_hash_table_lookup_insert, if_neg hk]
    refine ⟨trivial, trivial, hself, hother, ?_⟩
    constructor
    · intro hall
      rw [← hall kernel_wd, hself]
    · intro hl k
      by_cases hk : k = kernel_wd
      · rw [hk, hself, hl]
      · exact hother k hk

/-- Witness for C15 (amended): the path is registered under descriptor 1. When the
kernel returns 1 again every lookup is as before; when it returns 2 the registry's
mapping has changed, since descriptor 2 was not mapped to the path. -/
theorem galaxy_add_watch_ignores_registry_witness :
    (galaxy_add_watch "/tmp/t" 4095 true 1 [(1, "/tmp/t")]).ret = 1 ∧
    (∀ k, g_hash_table_lookup (galaxy_add_watch "/tmp/t" 4095 true 1 [(1, "/tmp/t")]).registry k
      = g_hash_table_lookup [(1, "/tmp/t")] k) ∧
    g_hash_table_lookup (galaxy_add_watch "/tmp/t" 4095 true 2 [(1, "/tmp/t")]).registry 2
      = some "/tmp/t" ∧
    ¬ (∀ k, g_hash_table_lookup (galaxy_add_watch "/tmp/t" 4095 true 2 [(1, "/tmp/t")]).registry k
      = g_hash_table_lookup [(1, "/tmp/t")] k) :=
  ⟨((galaxy_add_watch_ignores_registry "/tmp/t" 4095 1 [(1, "/tmp/t")]).2.2 (by decide)).1,
   ((galaxy_add_watch_ignores_registry "/tmp/t" 4095 1 [(1, "/tmp/t")]).2.2
      (by decide)).2.2.2.2.2 (by decide),
   ((galaxy_add_watch_ignores_registry "/tmp/t" 4095 2 [(1, "/tmp/t")]).2.2
      (by decide)).2.2.1,
   fun hall => absurd
     (((galaxy_add_watch_ignores_registry "/tmp/t" 4095 2 [(1, "/tmp/t")]).2.2
        (by decide)).2.2.2.2.1 hall) (by decide)⟩

/-- C16 (refuted as stated): descriptor 1 is registered; `galaxy_remove_watch (1)`
succeeds (the kernel returns 0) and the registry still maps 1 to its path. -/
theorem galaxy_remove_watch_keeps_entry :
    (galaxy_remove_watch 1 0 [(1, "/tmp/t")]).ret = 0 ∧
    g_hash_table_lookup (galaxy_remove_watch 1 0 [(1, "/tmp/t")]).registry 1
      = some "/tmp/t" := by
  decide

/-- C16 (amended): `galaxy_remove_watch (w)` removes the kernel watch only: its one
call is `inotify_rm_watch`, it returns the kernel's value (-1 if that is negative),
and the registry is left exactly as it was, so it maps `w` as before. -/
theorem galaxy_remove_watch_registry_unchanged (wd : Nat) (kernel_ret : Int)
    (registry : wd_table) :
    (galaxy_remove_watch wd kernel_ret registry).registry = registry ∧
    (galaxy_remove_watch wd kernel_ret registry).calls = [.inotify_rm_watch wd kernel_ret] ∧
    (galaxy_remove_watch wd kernel_ret registry).ret
      = (if kernel_ret < 0 then -1 else kernel_ret) ∧
    g_hash_table_lookup (galaxy_remove_watch wd kernel_ret registry).registry wd
      = g_hash_table_lookup registry wd := by
  unfold galaxy_remove_watch
  split_ifs <;> simp

/-! ### The delivery decision -/

theorem spec_deliver_fold (regexec : String → String → Bool) (event_mask : Nat)
    (path : String) (init : Bool) (rules : List rule) :
    rules.foldl
        (fun verdict r =>
          if rule_matches regexec event_mask path r then r.kind == .include_rule else verdict)
        init
      = match (rules.filter (rule_matches regexec event_mask path)).getLast? with
        | some r => r.kind == .include_rule
        | none => init := by
  induction rules using List.reverseRecOn with
  | nil => rfl
  | append_singleton l a ih =>
    rw [List.foldl_append, List.filter_append, ih]
    by_cases hm : rule_matches regexec event_mask path a = true
    · simp [hm]
    · simp [hm]

/-- C17: a session is delivered an event exactly when the event mask has a bit
outside the session's ignore mask and the last rule of the session, in insertion
order, whose mask intersects the event mask and whose regex matches the path is
an include rule. In particular a session with no rules, or whose rules all have
mask 0, is delivered nothing. -/
theorem spec_deliver_iff_last_match_include (regexec : String → String → Bool)
    (s : client_session) (event_mask : Nat) (path : String) :
    (spec_deliver regexec s event_mask path = true ↔
      effective_mask s event_mask ≠ 0 ∧
      ∃ r, last_matching_rule regexec s event_mask path = some r ∧ r.kind = .include_rule) ∧
    (s.rules = [] → spec_deliver regexec s event_mask path = false) ∧
    ((∀ r ∈ s.rules, r.mask = 0) → spec_deliver regexec s event_mask path = false) := by
  have key : spec_deliver regexec s event_mask path = true ↔
      effective_mask s event_mask ≠ 0 ∧
      ∃ r, last_matching_rule regexec s event_mask path = some r ∧ r.kind = .include_rule := by
    unfold spec_deliver last_matching_rule
    rw [spec_deliver_fold]
    by_cases h0 : effective_mask s event_mask = 0
    · simp [h0]
    · simp only [h0, if_false, ne_eq, not_false_eq_true, true_and]
      cases (s.rules.filter (rule_matches regexec event_mask path)).getLast? with
      | none => simp
      | some r => simp
  refine ⟨key, ?_, ?_⟩
  · intro hnil
    cases hd : spec_deliver regexec s event_mask path with
    | false => rfl
    | true =>
      obtain ⟨-, r, hr, -⟩ := key.1 hd
      simp [last_matching_rule, hnil] at hr
  · intro hz
    cases hd : spec_deliver regexec s event_mask path with
    | false => rfl
    | true =>
      obtain ⟨-, r, hr, -⟩ := key.1 hd
      have hmem := List.mem_of_getLast?_eq_some hr
      obtain ⟨hin, hmatch⟩ := List.mem_filter.1 hmem
      simp [rule_matches, hz r hin] at hmatch

/-- Witness for C17: with string equality standing in for the regex match, a
session with no rules and a session whose last matching rule is an exclude rule
are delivered nothing. -/
theorem spec_deliver_iff_last_match_include_witness :
    spec_deliver (fun regex path => regex == path) ⟨[], 0⟩ 256 "/tmp/t/a" = false ∧
    ¬ (effective_mask ⟨[⟨.include_rule, 768, "/tmp/t/a"⟩, ⟨.exclude_rule, 256, "/tmp/t/a"⟩], 0⟩
          256 ≠ 0 ∧
        ∃ r, last_matching_rule (fun regex path => regex == path)
            ⟨[⟨.include_rule, 768, "/tmp/t/a"⟩, ⟨.exclude_rule, 256, "/tmp/t/a"⟩], 0⟩
            256 "/tmp/t/a" = some r ∧ r.kind = .include_rule) :=
  ⟨(spec_deliver_iff_last_match_include (fun regex path => regex == path) ⟨[], 0⟩ 256
      "/tmp/t/a").2.1 rfl,
   fun h => absurd
     ((spec_deliver_iff_last_match_include (fun regex path => regex == path)
        ⟨[⟨.include_rule, 768, "/tmp/t/a"⟩, ⟨.exclude_rule, 256, "/tmp/t/a"⟩], 0⟩ 256
        "/tmp/t/a").1.2 h) (by decide)⟩

/-! ### galaxyd.c: the lock file -/

/-- C18 (the code at the failing input): daemon 100 runs `already_running` on an
unlocked lock file and gets 0; on return nobody holds the lock, because the
descriptor was closed. Daemon 200, started while 100 runs, then also gets 0. -/
theorem already_running_releases_lock :
    (already_running 100 3 false ⟨none, []⟩).1 = 0 ∧
    (already_running 100 3 false ⟨none, []⟩).2.holder = none ∧
    (already_running 200 3 false (already_running 100 3 false ⟨none, []⟩).2).1 = 0 := by
  simp [already_running, lockfile, close_lockfile]

/-! ### galaxyd.c: start-up of `main` -/

/-- C19 (the code at the failing inputs): with the lock acquired and the listening
socket created, a failing `inotify_init` (`open_dev` returns -1) makes `main`
return 0; and when `pthread_create` fails with `EAGAIN` (11) for the signal
thread, start-up does not terminate at all. -/
theorem main_startup_inotify_failure_status_zero :
    main_startup ⟨0, true, true, [], 4, -1, 0, 0, true, 0, 0, 0⟩ = some 0 ∧
    main_startup ⟨0, true, true, [], 4, 5, 0, 11, true, 0, 0, 0⟩ = none := by
  decide

/-! ### signal_thread.c -/

theorem signal_handler_no_sigint (pre : List Int) (hpre : ∀ signo ∈ pre, signo ≠ SIGINT) :
    (signal_handler pre).returned = false ∧
    (signal_handler pre).unhandled = [] ∧
    (∀ t, signal_event.pthread_cancel t ∉ (signal_handler pre).trace) := by
  induction pre with
  | nil => simp [signal_handler]
  | cons signo rest ih =>
    have h1 : signo ≠ SIGINT := hpre signo (List.mem_cons_self _ _)
    obtain ⟨i1, i2, i3⟩ := ih (fun x hx => hpre x (List.mem_cons_of_mem _ hx))
    simp only [signal_handler, h1, if_false]
    split_ifs
    · exact ⟨i1, i2, i3⟩
    · refine ⟨i1, i2, ?_⟩
      intro t ht
      rcases List.mem_cons.1 ht with h | h
      · cases h
      · exact i3 t h

theorem signal_handler_append_sigint (post : List Int) (pre : List Int)
    (hpre : ∀ signo ∈ pre, signo ≠ SIGINT) :
    signal_handler (pre ++ SIGINT :: post) =
      { trace := (signal_handler pre).trace ++
          [.pthread_cancel .crawler, .pthread_cancel .watcher, .pthread_cancel .server],
        returned := true, unhandled := post } := by
  induction pre with
  | nil => simp [signal_handler]
  | cons signo rest ih =>
    have h1 : signo ≠ SIGINT := hpre signo (List.mem_cons_self _ _)
    have := ih (fun x hx => hpre x (List.mem_cons_of_mem _ hx))
    rw [List.cons_append]
    simp only [signal_handler, h1, if_false]
    rw [this]
    split_ifs <;> simp

/-- C20: over any signals returned by `sigwait` none of which is `SIGINT`
(`SIGQUIT` or anything else), the handler cancels no thread and keeps waiting; at
the first `SIGINT` it cancels the crawler, the watcher and the server, once each
and in this order, and returns, so later signals are not handled. -/
theorem signal_handler_first_sigint (pre : List Int)
    (hpre : ∀ signo ∈ pre, signo ≠ SIGINT) :
    (signal_handler pre).returned = false ∧
    (signal_handler pre).unhandled = [] ∧
    (∀ t, signal_event.pthread_cancel t ∉ (signal_handler pre).trace) ∧
    (∀ post : List Int,
      signal_handler (pre ++ SIGINT :: post) =
        { trace := (signal_handler pre).trace ++
            [.pthread_cancel .crawler, .pthread_cancel .watcher, .pthread_cancel .server],
          returned := true, unhandled := post }) := by
  obtain ⟨h1, h2, h3⟩ := signal_handler_no_sigint pre hpre
  exact ⟨h1, h2, h3, fun post => signal_handler_append_sigint post pre hpre⟩

/-- Witness for C20: SIGQUIT, signal 15, SIGQUIT, then SIGINT followed by two more
signals that are never handled. -/
theorem signal_handler_first_sigint_witness :
    (∀ signo ∈ [SIGQUIT, 15, SIGQUIT], signo ≠ SIGINT) ∧
    (signal_handler [SIGQUIT, 15, SIGQUIT]).returned = false ∧
    signal_handler ([SIGQUIT, 15, SIGQUIT] ++ SIGINT :: [SIGINT, SIGQUIT]) =
      { trace := (signal_handler [SIGQUIT, 15, SIGQUIT]).trace ++
          [.pthread_cancel .crawler, .pthread_cancel .watcher, .pthread_cancel .server],
        returned := true, unhandled := [SIGINT, SIGQUIT] } :=
  ⟨by decide,
   (signal_handler_first_sigint [SIGQUIT, 15, SIGQUIT] (by decide)).1,
   (signal_handler_first_sigint [SIGQUIT, 15, SIGQUIT] (by decide)).2.2.2 [SIGINT, SIGQUIT]⟩

/-! ### galaxy.h: event masks -/

/-- C22: `GAL_ALL_EVENTS` is the bitwise OR of the eleven user-space events, that is
0x7ff; the sixteen mask flags are single bits, pairwise disjoint; and
`GAL_ALL_EVENTS` shares no bit with `UNMOUNT`, `Q_OVERFLOW`, `IGNORED`, `ISDIR`,
`ONESHOT`. -/
theorem gal_all_events_mask :
    GAL_ALL_EVENTS = gal_user_events.foldl (fun a b => a ||| b) 0 ∧
    GAL_ALL_EVENTS = 0x000007ff ∧
    (gal_user_events ++ gal_other_flags).length = 16 ∧
    (∀ f ∈ gal_user_events ++ gal_other_flags, is_single_bit f = true) ∧
    (gal_user_events ++ gal_other_flags).Pairwise (fun a b => a &&& b = 0) ∧
    (∀ f ∈ gal_other_flags, GAL_ALL_EVENTS &&& f = 0) := by
  refine ⟨by decide, by decide, by decide, by decide, by decide, by decide⟩

/-! ### galaxyd.c: contents of the lock file -/

/-- C23 (refuted as stated): after `already_running` succeeds for pid 100 the lock
file holds four bytes, the digits "100" followed by a NUL byte. -/
theorem already_running_writes_nul :
    (already_running 100 3 false ⟨none, []⟩).1 = 0 ∧
    (already_running 100 3 false ⟨none, []⟩).2.contents = ['1', '0', '0', Char.ofNat 0] ∧
    (already_running 100 3 false ⟨none, []⟩).2.contents ≠ decimal_chars 100 := by
  simp [already_running, lockfile, close_lockfile, decimal_chars, digit_char]

/-- C23 (amended): after `already_running` returns 0 for a daemon with process id
`p`, the lock file holds exactly the decimal digits of `p` followed by one NUL
byte (`strlen (buf) + 1` bytes are written into the truncated file). -/
theorem already_running_contents (pid : Nat) (open_fd : Int) (lock_error : Bool)
    (st : lockfile_state) (hok : (already_running pid open_fd lock_error st).1 = 0) :
    (already_running pid open_fd lock_error st).2.contents
      = decimal_chars pid ++ [Char.ofNat 0] := by
  unfold already_running at hok ⊢
  split_ifs at hok ⊢ with h1
  · simp at hok
  · split at hok
    · simp at hok
    · simp at hok
    · rename_i st1 heq
      simp only [heq]
      unfold close_lockfile
      split_ifs <;> rfl

/-- Witness for C23 (amended): pid 4711 on an unlocked, empty lock file. -/
theorem already_running_contents_witness :
    (already_running 4711 3 false ⟨none, []⟩).1 = 0 ∧
    (already_running 4711 3 false ⟨none, []⟩).2.contents
      = decimal_chars 4711 ++ [Char.ofNat 0] :=
  ⟨by simp [already_running, lockfile],
   already_running_contents 4711 3 false ⟨none, []⟩ (by simp [already_running, lockfile])⟩

/-! ### thread.c -/

/-- C24 (the code at the failing input): `pthread_create` fails with `EAGAIN` (11);
`create_joinable_thread` and `create_detached_thread` return 11, not -1, and no
thread exists. (A failing `pthread_attr_setdetachstate` does give -2.) -/
theorem create_thread_positive_error :
    create_joinable_thread 11 = (11, false) ∧
    create_detached_thread 0 11 = (11, false) ∧
    create_detached_thread 22 0 = (-2, false) := by
  decide

/-! ### event_queue.c: indices and reachable states -/

/-- C25 (the code at the failing input): after `queue_create (1)` and one
`queue_enqueue (d)`, the element was stored in slot 0 but `front` is 1, which is
not below the capacity 1; `queue_front` reads slot 1, outside the block, and
returns whatever is there (here `NULL`) instead of `d`. -/
theorem queue_capacity_one_front_out_of_range :
    (queue_enqueue (some 7) (queue_create 1 (fun _ => (none : Option Nat)))).rear = 0 ∧
    (queue_enqueue (some 7) (queue_create 1 (fun _ => (none : Option Nat)))).array 0 = some 7 ∧
    (queue_enqueue (some 7) (queue_create 1 (fun _ => (none : Option Nat)))).front = 1 ∧
    ¬ (queue_enqueue (some 7) (queue_create 1 (fun _ => (none : Option Nat)))).front
        < (queue_enqueue (some 7) (queue_create 1 (fun _ => (none : Option Nat)))).capacity ∧
    queue_front (queue_enqueue (some 7) (queue_create 1 (fun _ => (none : Option Nat))))
      = none ∧
    (∀ (g : Int → Option Nat) (d : Option Nat),
      queue_front (queue_enqueue d (queue_create 1 g)) = g 1) := by
  refine ⟨by decide, by decide, by decide, by decide, by decide, ?_⟩
  intro g d
  simp [queue_front, queue_enqueue, queue_create, queue_make_empty, queue_full, queue_empty,
    next_position]

theorem queue_holds_make_empty {n : Int} (hn : 2 ≤ n) {q : queue_struct α}
    (hcap : q.capacity = n) : queue_holds n (queue_make_empty q) [] := by
  refine ⟨hcap, ?_, ?_, ?_, ?_, rfl, ?_, ?_, ?_⟩ <;>
    simp [queue_make_empty, next_position, ring_pos, hcap] <;> omega

theorem queue_calls_run_holds {n : Int} (hn : 2 ≤ n) (calls : List (queue_call α)) :
    ∀ {q : queue_struct α} {l : List (Option α)}, queue_holds n q l →
      ∃ l2, queue_holds n (queue_calls_run calls q) l2 := by
  induction calls with
  | nil => intro q l h; exact ⟨l, h⟩
  | cons call calls ih =>
    intro q l h
    cases call with
    | enqueue d =>
      cases hf : queue_full q with
      | true =>
        have : queue_enqueue d q = q := by simp [queue_enqueue, hf]
        simpa [queue_calls_run, queue_call_apply, this] using ih h
      | false =>
        simpa [queue_calls_run, queue_call_apply] using ih (queue_holds_enqueue h hf d)
    | dequeue =>
      simpa [queue_calls_run, queue_call_apply] using ih (queue_holds_dequeue h)
    | make_empty =>
      simpa [queue_calls_run, queue_call_apply] using ih (queue_holds_make_empty hn h.cap)

theorem queue_holds_rear_mod {n : Int} {q : queue_struct α} {l : List (Option α)}
    (h : queue_holds n q l) : q.rear = (q.front + q.size - 1) % n := by
  obtain ⟨cap, f0, f1, r0, r1, sz, szle, rr, -⟩ := h
  have hs0 : 0 ≤ q.size := by rw [sz]; exact Int.ofNat_nonneg _
  have hcases : q.front + q.size - 1 = q.rear ∨ q.front + q.size - 1 = q.rear + n ∨
      q.front + q.size - 1 + n = q.rear := by
    simp only [next_position, ring_pos, cap] at rr
    split_ifs at rr <;> omega
  rcases hcases with h1 | h1 | h1
  · rw [h1, Int.emod_eq_of_lt r0 r1]
  · rw [h1, Int.add_emod_self, Int.emod_eq_of_lt r0 r1]
  · rw [← Int.add_emod_self, h1, Int.emod_eq_of_lt r0 r1]

/-- C26: for capacity `n ≥ 2`, every state reached from `queue_create (n)` by
`queue_enqueue`, `queue_dequeue` and `queue_make_empty` calls has
`0 ≤ size ≤ n` and `rear = (front + size - 1) mod n` (with both indices in
`[0, n)`); in it `queue_enqueue` on a full queue and `queue_dequeue` on an empty
queue change nothing, and `queue_front` on an empty queue returns `NULL`. -/
theorem queue_reachable_invariant (n : Int) (hn : 2 ≤ n) (g : Int → Option α)
    (calls : List (queue_call α)) :
    0 ≤ (queue_calls_run calls (queue_create n g)).size ∧
    (queue_calls_run calls (queue_create n g)).size ≤ n ∧
    (queue_calls_run calls (queue_create n g)).rear
      = ((queue_calls_run calls (queue_create n g)).front
          + (queue_calls_run calls (queue_create n g)).size - 1) % n ∧
    (0 ≤ (queue_calls_run calls (queue_create n g)).front ∧
      (queue_calls_run calls (queue_create n g)).front < n) ∧
    (0 ≤ (queue_calls_run calls (queue_create n g)).rear ∧
      (queue_calls_run calls (queue_create n g)).rear < n) ∧
    (∀ d, queue_full (queue_calls_run calls (queue_create n g)) = true →
      queue_enqueue d (queue_calls_run calls (queue_create n g))
        = queue_calls_run calls (queue_create n g)) ∧
    (queue_empty (queue_calls_run calls (queue_create n g)) = true →
      queue_dequeue (queue_calls_run calls (queue_create n g))
        = queue_calls_run calls (queue_create n g) ∧
      queue_front (queue_calls_run calls (queue_create n g)) = none) := by
  obtain ⟨l, h⟩ := queue_calls_run_holds hn calls (queue_holds_create n hn g)
  refine ⟨?_, h.size_le, queue_holds_rear_mod h, ⟨h.front_lo, h.front_hi⟩,
    ⟨h.rear_lo, h.rear_hi⟩, ?_, ?_⟩
  · rw [h.size_eq]; exact Int.ofNat_nonneg _
  · intro d hf
    simp [queue_enqueue, hf]
  · intro he
    simp [queue_dequeue, queue_front, he]

/-- Witness for C26: capacity 2; enqueue, enqueue, enqueue (on the full queue),
dequeue, make_empty, dequeue (on the empty queue). -/
theorem queue_reachable_invariant_witness :
    (queue_calls_run
      [queue_call.enqueue (some 1), .enqueue (some 2), .enqueue (some 3), .dequeue,
       .make_empty, .dequeue] (queue_create 2 (fun _ => (none : Option Nat)))).rear
      = ((queue_calls_run
          [queue_call.enqueue (some 1), .enqueue (some 2), .enqueue (some 3), .dequeue,
           .make_empty, .dequeue] (queue_create 2 (fun _ => (none : Option Nat)))).front
        + (queue_calls_run
          [queue_call.enqueue (some 1), .enqueue (some 2), .enqueue (some 3), .dequeue,
           .make_empty, .dequeue] (queue_create 2 (fun _ => (none : Option Nat)))).size - 1) % 2 :=
  (queue_reachable_invariant 2 (by decide) (fun _ => (none : Option Nat))
    [queue_call.enqueue (some 1), .enqueue (some 2), .enqueue (some 3), .dequeue,
     .make_empty, .dequeue]).2.2.1

/-! ### server_thread.c: failed payload reads and unserviceable connections -/

/-- C27: when the regex payload of a WATCH or IGNORE_WATCH command cannot be
received (`net_recv_string` returns `NULL`), `client_request` still makes the
rule-insertion call, with a `NULL` regex, before closing the connection. This is
what happens when the client library sends the command with a `NULL` regex, since
it then writes the command and the mask only. -/
theorem client_request_null_regexp (name : String) (m : Nat) (rest : List frame)
    (hnull : (net_recv_string rest).1 = none) :
    client_request_round name (some (.uint32 GALAXY_WATCH :: .uint32 m :: rest)) =
      ([.recv_uint32 (some GALAXY_WATCH), .recv_uint32 (some m), .recv_string none,
        .add_galaxy_watch name m none, .close_connfd (net_recv_string rest).2], false) ∧
    client_request_round name (some (.uint32 GALAXY_IGNORE_WATCH :: .uint32 m :: rest)) =
      ([.recv_uint32 (some GALAXY_IGNORE_WATCH), .recv_uint32 (some m), .recv_string none,
        .add_galaxy_ignore_watch name m none, .close_connfd (net_recv_string rest).2],
       false) ∧
    (∀ (E connfd e1 e2 e3 : Int), 0 ≤ connfd → 0 ≤ e1 → 0 ≤ e2 →
      (galaxy_watch E connfd m none e1 e2 e3).2 = [.uint32 GALAXY_WATCH, .uint32 m] ∧
      session_calls (client_request_round name
          (some (galaxy_watch E connfd m none e1 e2 e3).2)).1
        = [.add_galaxy_watch name m none] ∧
      (galaxy_ignore_watch E connfd m none e1 e2 e3).2
        = [.uint32 GALAXY_IGNORE_WATCH, .uint32 m] ∧
      session_calls (client_request_round name
          (some (galaxy_ignore_watch E connfd m none e1 e2 e3).2)).1
        = [.add_galaxy_ignore_watch name m none]) := by
  refine ⟨?_, ?_, ?_⟩
  · simp [client_request_round, net_recv_uint32, hnull, GALAXY_WATCH, GALAXY_EXIT]
  · simp [client_request_round, net_recv_uint32, hnull, GALAXY_WATCH, GALAXY_EXIT,
      GALAXY_IGNORE_WATCH]
  · intro E connfd e1 e2 e3 h0 h1 h2
    have c0 : ¬ connfd < 0 := by omega
    have c1 : ¬ e1 < 0 := by omega
    have c2 : ¬ e2 < 0 := by omega
    simp [galaxy_watch, galaxy_ignore_watch, galaxy_send_server_command, c0, c1, c2,
      client_request_round, net_recv_uint32, net_recv_string, session_calls,
      GALAXY_WATCH, GALAXY_EXIT, GALAXY_IGNORE_WATCH]

/-- Witness for C27: a WATCH command followed by nothing, and the frames written by
`galaxy_watch` with a `NULL` regex. -/
theorem client_request_null_regexp_witness :
    client_request_round "s" (some (.uint32 GALAXY_WATCH :: .uint32 256 :: [])) =
      ([.recv_uint32 (some GALAXY_WATCH), .recv_uint32 (some 256), .recv_string none,
        .add_galaxy_watch "s" 256 none, .close_connfd (net_recv_string []).2], false) ∧
    session_calls (client_request_round "s"
        (some (galaxy_watch (-1) 5 256 none 0 0 0).2)).1 = [.add_galaxy_watch "s" 256 none] :=
  ⟨(client_request_null_regexp "s" 256 [] rfl).1,
   ((client_request_null_regexp "s" 256 [] rfl).2.2 (-1) 5 0 0 0
      (by decide) (by decide) (by decide)).2.1⟩

/-- C28: on a connection where the command word cannot be received, or where the
command is not EXIT and the mask cannot be received, or where the command is none
of WATCH, IGNORE_MASK, IGNORE_WATCH, EXIT, `client_request` makes no call into the
session registry, closes the connection and goes on with the next connection; for
an unrecognised command it has received one mask word before closing. -/
theorem client_request_no_mutation (name : String) (cs : List (Option (List frame))) :
    (∀ conn : List frame, (net_recv_uint32 conn).1 = none →
      client_request name (some conn :: cs) =
        { client_request name cs with
          trace := [.recv_uint32 none, .close_connfd conn] ++ (client_request name cs).trace } ∧
      session_calls (client_request_round name (some conn)).1 = []) ∧
    (∀ (cmd : Nat) (rest : List frame), cmd ≠ GALAXY_EXIT →
      (net_recv_uint32 rest).1 = none →
      client_request name (some (.uint32 cmd :: rest) :: cs) =
        { client_request name cs with
          trace := [.recv_uint32 (some cmd), .recv_uint32 none, .close_connfd rest]
            ++ (client_request name cs).trace } ∧
      session_calls (client_request_round name (some (.uint32 cmd :: rest))).1 = []) ∧
    (∀ (cmd m : Nat) (rest : List frame), cmd ≠ GALAXY_WATCH → cmd ≠ GALAXY_IGNORE_MASK →
      cmd ≠ GALAXY_IGNORE_WATCH → cmd ≠ GALAXY_EXIT →
      client_request name (some (.uint32 cmd :: .uint32 m :: rest) :: cs) =
        { client_request name cs with
          trace := [.recv_uint32 (some cmd), .recv_uint32 (some m), .close_connfd rest]
            ++ (client_request name cs).trace } ∧
      session_calls (client_request_round name (some (.uint32 cmd :: .uint32 m :: rest))).1
        = []) := by
  refine ⟨?_, ?_, ?_⟩
  · intro conn h
    have hr : net_recv_uint32 conn = (none, conn) := by
      match conn, h with
      | [], _ => rfl
      | .string _ :: _, _ => rfl
      | .uint32 _ :: _, h => simp [net_recv_uint32] at h
    simp [client_request, client_request_round, hr, session_calls]
  · intro cmd rest hc h
    have hr : net_recv_uint32 rest = (none, rest) := by
      match rest, h with
      | [], _ => rfl
      | .string _ :: _, _ => rfl
      | .uint32 _ :: _, h => simp [net_recv_uint32] at h
    have e : net_recv_uint32 (.uint32 cmd :: rest) = (some cmd, rest) := rfl
    have hround : client_request_round name (some (.uint32 cmd :: rest)) =
        ([.recv_uint32 (some cmd), .recv_uint32 none, .close_connfd rest], false) := by
      simp only [client_request_round, e, hc, if_false, hr]
    simp [client_request, hround, session_calls]
  · intro cmd m rest h1 h2 h3 h4
    simp only [client_request, client_request_round, net_recv_uint32, h1, h2, h3, h4,
      if_false]
    simp [session_calls]

/-- Witness for C28: an empty connection, a command 2 without mask, and the
unknown command 9 with a mask, each followed by one more connection. -/
theorem client_request_no_mutation_witness :
    session_calls (client_request_round "s" (some [])).1 = [] ∧
    session_calls (client_request_round "s" (some [.uint32 2])).1 = [] ∧
    client_request "s" (some (.uint32 9 :: .uint32 7 :: []) :: [none]) =
      { client_request "s" [none] with
        trace := [.recv_uint32 (some 9), .recv_uint32 (some 7), .close_connfd []]
          ++ (client_request "s" [none]).trace } :=
  ⟨((client_request_no_mutation "s" [none]).1 [] rfl).2,
   ((client_request_no_mutation "s" [none]).2.1 2 [] (by decide) rfl).2,
   ((client_request_no_mutation "s" [none]).2.2 9 7 [] (by decide) (by decide) (by decide)
      (by decide)).1⟩

/-! ### libgalaxy.c: names after a failed connect -/

/-- C29 (the code at the failing input): in process 42 a first `galaxy_connect`,
entered with counter 0, sends pid 42 and id 1 and then fails to receive the
acknowledgement; the daemon, given these frames, listens on "/tmp/galaxy.00042.1".
The counter is left at 1, and the next `galaxy_connect` binds its delivery socket
at that same name. The same happens when the first call is refused with
`ACK_FAIL`. -/
theorem galaxy_connect_reuses_requested_name :
    (galaxy_connect "/tmp/galaxy." (-1) 42 ⟨3, 0, 0, 0, -1, 0⟩ 0 ⟨-1, ""⟩).ret = -1 ∧
    (galaxy_connect "/tmp/galaxy." (-1) 42 ⟨3, 0, 0, 0, -1, 0⟩ 0 ⟨-1, ""⟩).uniqueid = 1 ∧
    listened_name (server_thread_round "/tmp/galaxy."
        (galaxy_connect "/tmp/galaxy." (-1) 42 ⟨3, 0, 0, 0, -1, 0⟩ 0 ⟨-1, ""⟩).sent
        ⟨true, 5, 0, 0, 0⟩) = some "/tmp/galaxy.00042.1" ∧
    (galaxy_connect "/tmp/galaxy." (-1) 42 ⟨4, 0, 0, 0, 0, ACK_SUCCESS⟩
        (galaxy_connect "/tmp/galaxy." (-1) 42 ⟨3, 0, 0, 0, -1, 0⟩ 0 ⟨-1, ""⟩).uniqueid
        ⟨-1, ""⟩).cliname = "/tmp/galaxy.00042.1" ∧
    (galaxy_connect "/tmp/galaxy." (-1) 42 ⟨3, 0, 0, 0, 0, ACK_FAIL⟩ 0 ⟨-1, ""⟩).uniqueid = 1 ∧
    (galaxy_connect "/tmp/galaxy." (-1) 42 ⟨3, 0, 0, 0, 0, ACK_FAIL⟩ 0 ⟨-1, ""⟩).sent
      = [.string "/tmp/galaxy.00042.0", .uint32 42, .uint32 1] := by
  refine ⟨by decide, by decide, ?_, ?_, by decide, ?_⟩ <;>
    simp [galaxy_connect, ACK_FAIL, ACK_SUCCESS, listened_name, server_thread_round,
      net_recv_string, net_recv_uint32, server_thread_name, sprintf_s_05d_d, fmt_05d, fmt_d,
      decimal_chars, digit_char]

/-! ### plogd.c: the watch regular expression -/

theorem strcpy_fits {size : Nat} {src : List Char} (h : src.length + 1 ≤ size) :
    strcpy size src = some src := by
  simp [strcpy, h]

theorem strcat_fits {size : Nat} {d src : List Char} (h : d.length + src.length + 1 ≤ size) :
    strcat size (some d) src = some (d ++ src) := by
  simp [strcat, h]

/-- C30: without `-r`, and for every non-empty root directory given with `-r`, the
writes into `regexp` stay inside the buffer and build "^" + root + ("/" unless the
root ends in "/") + ".*" (just "^.*" without a root), and the length of that
string plus the terminating NUL is exactly `regexp_len`. -/
theorem plogd_regexp_fits (before : Char) :
    (plogd_regexp none before = some (spec_plogd_regexp none) ∧
      ((spec_plogd_regexp none).length : Int) + 1 = plogd_regexp_len none before) ∧
    (∀ r : List Char, r ≠ [] →
      plogd_regexp (some r) before = some (spec_plogd_regexp (some r)) ∧
      ((spec_plogd_regexp (some r)).length : Int) + 1 = plogd_regexp_len (some r) before) := by
  constructor
  · constructor
    · simp [plogd_regexp, plogd_regexp_len, strcpy, strcat, spec_plogd_regexp]
    · simp [plogd_regexp_len, spec_plogd_regexp]
  · intro r hr
    obtain ⟨c, hc⟩ : ∃ c, r.getLast? = some c := by
      cases h : r.getLast? with
      | none => exact absurd (List.getLast?_eq_none_iff.1 h) hr
      | some c => exact ⟨c, rfl⟩
    have hlast : root_dir_last r before = c := by simp [root_dir_last, hc]
    by_cases hs : c = '/'
    · subst hs
      have e1 : ((r.length : Int) + 4).toNat = r.length + 4 := by omega
      constructor
      · simp only [plogd_regexp, plogd_regexp_len, hlast, ne_eq, not_true_eq_false, if_false, e1]
        rw [strcpy_fits (by simp), strcat_fits (by simp only [List.length_cons, List.length_nil]; omega),
          strcat_fits (by simp only [List.length_cons, List.length_append, List.length_nil]; omega)]
        simp [spec_plogd_regexp, hc]
      · simp [plogd_regexp_len, hlast, spec_plogd_regexp, hc]
        omega
    · have e1 : ((r.length : Int) + 4 + 1).toNat = r.length + 5 := by omega
      constructor
      · simp only [plogd_regexp, plogd_regexp_len, hlast, ne_eq, hs, not_false_eq_true, if_true,
          e1]
        rw [strcpy_fits (by simp), strcat_fits (by simp only [List.length_cons, List.length_nil]; omega),
          strcat_fits (by simp only [List.length_cons, List.length_append, List.length_nil]; omega),
          strcat_fits (by simp only [List.length_cons, List.length_append, List.length_nil]; omega)]
        simp [spec_plogd_regexp, hc, hs]
      · simp [plogd_regexp_len, hlast, hs, spec_plogd_regexp, hc]
        omega

/-- Witness for C30: the roots "/usr" and "/usr/". -/
theorem plogd_regexp_fits_witness :
    plogd_regexp (some "/usr".data) 'x' = some "^/usr/.*".data ∧
    plogd_regexp (some "/usr/".data) 'x' = some "^/usr/.*".data ∧
    plogd_regexp_len (some "/usr".data) 'x' = 9 :=
  ⟨((plogd_regexp_fits 'x').2 "/usr".data (by decide)).1,
   ((plogd_regexp_fits 'x').2 "/usr/".data (by decide)).1,
   by decide⟩

/-! ### galaxyd.c: the root directories -/

theorem foldl_list_push (args : List (List Char)) :
    ∀ init : List (List Char), args.foldl list_push init = init ++ args := by
  induction args with
  | nil => intro init; simp
  | cons a rest ih => intro init; simp [List.foldl_cons, ih, list_push]

theorem spec_path_entries_skip (s : List Char) :
    spec_path_entries s = spec_path_entries (s.dropWhile (fun c => c == ':')) := by
  induction s with
  | nil => rfl
  | cons c cs ih =>
    by_cases hc : (c == ':') = true
    · rw [List.dropWhile_cons, if_pos hc, ← ih]
      simp [spec_path_entries, List.splitOn, List.splitOnP_cons, hc]
    · rw [List.dropWhile_cons, if_neg hc]

theorem spec_path_entries_token (s : List Char) (hne : s ≠ [])
    (hhead : s.dropWhile (fun c => c == ':') = s) :
    spec_path_entries s =
      s.takeWhile (fun c => c != ':') ::
        spec_path_entries ((s.dropWhile (fun c => c != ':')).drop 1) := by
  have htake : s.takeWhile (fun c => c != ':') ≠ [] := by
    cases s with
    | nil => exact absurd rfl hne
    | cons c cs =>
      have hc : ¬ (c == ':') = true := by
        intro h
        rw [List.dropWhile_cons, if_pos h] at hhead
        have := (List.dropWhile_suffix (fun c => c == ':') (l := cs)).length_le
        rw [hhead] at this
        simp at this
      have hc2 : (c != ':') = true := by simpa [bne] using hc
      rw [List.takeWhile_cons, if_pos hc2]
      simp
  have hsplit := List.takeWhile_append_dropWhile (fun c => c != ':') s
  have hnot : ∀ x ∈ s.takeWhile (fun c => c != ':'), ¬ (x == ':') = true := by
    intro x hx
    have := List.mem_takeWhile_imp hx
    simpa [bne] using this
  cases hd : s.dropWhile (fun c => c != ':') with
  | nil =>
    rw [hd, List.append_nil] at hsplit
    have hs : s.splitOnP (fun c => c == ':') = [s] := by
      apply List.splitOnP_eq_single
      intro x hx
      rw [← hsplit] at hx
      exact hnot x hx
    rw [hsplit]
    simp [spec_path_entries, List.splitOn, hs, hne]
  | cons sep rest =>
    have hsep : (sep == ':') = true := by
      have h1 := List.head?_dropWhile_not (fun c => c != ':') s
      rw [hd] at h1
      simpa [bne] using h1
    rw [hd] at hsplit
    have hs : s.splitOnP (fun c => c == ':')
        = s.takeWhile (fun c => c != ':') :: rest.splitOnP (fun c => c == ':') := by
      conv_lhs => rw [← hsplit]
      exact List.splitOnP_first _ _ hnot sep hsep rest
    simp [spec_path_entries, List.splitOn, hs, htake]

theorem strtok_push_loop_entries :
    ∀ (fuel : Nat) (str : Option (List Char)) (saved : List Char) (dirs : List (List Char)),
      (str.getD saved).length < fuel →
      strtok_push_loop fuel str saved dirs
        = some (dirs ++ spec_path_entries (str.getD saved)) := by
  intro fuel
  induction fuel with
  | zero => intro str saved dirs h; simp at h
  | succ fuel ih =>
    intro str saved dirs hlen
    have hsuf := (List.dropWhile_suffix (fun c => c == ':') (l := str.getD saved)).length_le
    rw [spec_path_entries_skip]
    by_cases hnil : (str.getD saved).dropWhile (fun c => c == ':') = []
    · simp [strtok_push_loop, strtok, hnil, spec_path_entries, List.splitOn]
    · have hhead : ((str.getD saved).dropWhile (fun c => c == ':')).dropWhile
          (fun c => c == ':') = (str.getD saved).dropWhile (fun c => c == ':') := by
        cases hd : (str.getD saved).dropWhile (fun c => c == ':') with
        | nil => exact absurd hd hnil
        | cons c cs =>
          have h1 := List.head?_dropWhile_not (fun c => c == ':') (str.getD saved)
          rw [hd] at h1
          have hc : ¬ (c == ':') = true := by simpa using h1
          rw [List.dropWhile_cons, if_neg hc]
      rw [spec_path_entries_token _ hnil hhead]
      simp only [strtok_push_loop, strtok, hnil, if_false]
      have hrest : List.length ((((str.getD saved).dropWhile (fun c => c == ':')).dropWhile
          (fun c => c != ':')).drop 1) < fuel := by
        have h2 := (List.dropWhile_suffix (fun c => c != ':')
          (l := (str.getD saved).dropWhile (fun c => c == ':'))).length_le
        have hpos : 0 < ((str.getD saved).dropWhile (fun c => c == ':')).length :=
          List.length_pos.2 hnil
        rw [List.length_drop]
        omega
      have := ih none
        ((((str.getD saved).dropWhile (fun c => c == ':')).dropWhile (fun c => c != ':')).drop 1)
        (list_push dirs
          (((str.getD saved).dropWhile (fun c => c == ':')).takeWhile (fun c => c != ':')))
        hrest
      rw [this]
      simp [list_push]

/-- C21: the list of root directories `main` hands to the crawler is the positional
arguments in order followed by the non-empty colon-separated entries of
`GALAXY_SEARCH_PATH` in order; when that list is empty it is `$PWD` alone, if
`PWD` is set. The fuel only has to exceed the length of the search path. -/
theorem main_dirs_root_list (lone_args : List (List Char))
    (search_path PWD : Option (List Char)) (fuel : Nat)
    (hfuel : ∀ path, search_path = some path → path.length < fuel) :
    main_dirs lone_args search_path PWD fuel
      = some (spec_root_dirs lone_args search_path PWD) := by
  unfold main_dirs spec_root_dirs
  rw [foldl_list_push, List.nil_append]
  cases search_path with
  | none =>
    cases lone_args with
    | nil => cases PWD <;> simp [list_size, list_push]
    | cons a rest => simp [list_size]
  | some path =>
    have := strtok_push_loop_entries fuel (some path) [] lone_args
      (by simpa using hfuel path rfl)
    simp only [Option.getD_some] at this
    simp only [this, Option.map_some', Option.getD_some]
    by_cases hempty : lone_args ++ spec_path_entries path = []
    · cases PWD <;> simp [list_size, list_push, hempty]
    · have hlen : list_size (lone_args ++ spec_path_entries path) ≠ 0 := by
        simpa [list_size] using hempty
      simp [hlen, hempty]

/-- Witness for C21: one positional argument and the search path ":/b::/c:"; and no
argument, an empty search path and `PWD` set. -/
theorem main_dirs_root_list_witness :
    main_dirs ["/a".data] (some ":/b::/c:".data) (some "/home".data) 9
      = some (spec_root_dirs ["/a".data] (some ":/b::/c:".data) (some "/home".data)) ∧
    spec_root_dirs ["/a".data] (some ":/b::/c:".data) (some "/home".data)
      = ["/a".data, "/b".data, "/c".data] ∧
    main_dirs [] (some "".data) (some "/home".data) 1
      = some (spec_root_dirs [] (some "".data) (some "/home".data)) ∧
    spec_root_dirs [] (some "".data) (some "/home".data) = ["/home".data] :=
  ⟨main_dirs_root_list ["/a".data] (some ":/b::/c:".data) (some "/home".data) 9
      (by intro path h; cases h; decide),
   by decide,
   main_dirs_root_list [] (some "".data) (some "/home".data) 1
      (by intro path h; cases h; decide),
   by decide⟩

end Galaxy
